import Mathlib

/-!
# Verification of the LMS document-access layer

A shallow embedding of the repository's core (`src/main.py`, `src/schemas.py`):
MongoDB documents are association lists from field names to BSON-like values,
collections are lists of documents in insertion (natural) order, and each
FastAPI endpoint of `main.py` becomes a Lean function over an explicit
collection state.  The store adapter `database.create_document` is not part of
the provided sources; it is modelled from the specification (see
`create_document` below).

Conventions of the embedding:
* `ObjectId`s are natural numbers; their string form (`str(ObjectId)`) is the
  24-hex-character rendering `toHex24`.
* Python `datetime` values are modelled by the constructor `Value.vDateTime`
  carrying their `isoformat()` rendering; `hasattr(v, "isoformat")` holds
  exactly for this constructor.
* MongoDB filters are modelled for the fragment the code uses: equality
  constraints (including the array-containment semantics of equality on array
  fields and the null-matches-missing rule) and case-insensitive `$regex`
  constraints whose pattern consists of literal characters and the `.`
  wildcard — for such patterns an unanchored caseless search is exactly the
  PCRE behaviour MongoDB implements.
* `find_one` returns the first matching document in natural order; `limit 0`
  means "no limit" and a negative limit behaves like its absolute value, as
  documented for MongoDB cursors.
* `sort("order", 1)` is modelled relationally: MongoDB guarantees an
  ascending reordering but does not guarantee the relative order of documents
  with equal sort keys, so the result is any sorted permutation.
-/

/-- BSON-like values stored in documents. -/
inductive Value where
  | vStr (s : String)
  | vInt (n : Int)
  | vNull
  | vStrList (l : List String)
  | vOid (n : Nat)
  | vDateTime (iso : String)
deriving DecidableEq, Repr

open Value

/-- A storage document: a Python dict from field name to value
(insertion-ordered, unique keys in all documents the code builds). -/
abbrev Doc := List (String × Value)

/-- `d[k]` lookup returning `none` when the key is absent. -/
def dictGet : Doc → String → Option Value
  | [], _ => none
  | (k', v) :: rest, k => if k' = k then some v else dictGet rest k

/-- Python `dict` assignment: overwrite in place, or append a new key. -/
def dictSet : Doc → String → Value → Doc
  | [], k, v => [(k, v)]
  | (k', v') :: rest, k, v =>
      if k' = k then (k, v) :: rest else (k', v') :: dictSet rest k v

/-- Python `d.pop(k)`: the dict without key `k`. -/
def dictPop (d : Doc) (k : String) : Doc :=
  d.filter (fun kv => !(kv.1 = k : Bool))

/-- Apply a Mongo `$set` update: assign every listed field in order. -/
def setAll (d : Doc) (upd : Doc) : Doc :=
  upd.foldl (fun acc kv => dictSet acc kv.1 kv.2) d

/-- The lower-case hex digit of `n % 16`, used to render ObjectIds. -/
def hexDigitChar (n : Nat) : Char :=
  if n % 16 < 10 then Char.ofNat (48 + n % 16) else Char.ofNat (87 + n % 16)

/-- `str(ObjectId)`: the 24-hex-character rendering of an identifier. -/
def toHex24 (n : Nat) : String :=
  ⟨(List.range 24).map (fun i => hexDigitChar (n / 16 ^ (23 - i)))⟩

/-- Python `str()` on a stored value (only ever applied to `_id` values). -/
def strOfValue : Value → String
  | vStr s => s
  | vInt n => toString n
  | vNull => "None"
  | vStrList _ => "[]"
  | vOid n => toHex24 n
  | vDateTime s => s

/-- `hasattr(v, "isoformat")` holds exactly for datetime values; `serialize`
replaces such a value by its `isoformat()` string. -/
def isofy : Value → Value
  | vDateTime s => vStr s
  | v => v

/-- `main.serialize`: copy the document, rename `_id` to a string-rendered
`id`, and render every datetime field as ISO-8601 text.  A falsy (empty)
document is returned unchanged. -/
def serialize (doc : Doc) : Doc :=
  if doc.isEmpty then doc
  else
    (match dictGet doc "_id" with
      | some v => dictSet (dictPop doc "_id") "id" (vStr (strOfValue v))
      | none => doc).map (fun (kv : String × Value) => (kv.1, isofy kv.2))

/-- Case-insensitive single-character match for the regex fragment:
`.` matches anything, a literal matches caselessly. -/
def charMatchI (p c : Char) : Bool := p = '.' || p.toLower = c.toLower

/-- Does the pattern match a prefix of the text (regex fragment)? -/
def patFront : List Char → List Char → Bool
  | [], _ => true
  | _ :: _, [] => false
  | p :: ps, c :: cs => charMatchI p c && patFront ps cs

/-- Unanchored search of the pattern in the text (regex fragment). -/
def patSearch (pat : List Char) : List Char → Bool
  | [] => patFront pat []
  | c :: cs => patFront pat (c :: cs) || patSearch pat cs

/-- MongoDB `{$regex: pat, $options: "i"}` on a string, for patterns made of
literal characters and the `.` wildcard. -/
def regexSearchI (pat s : String) : Bool := patSearch pat.data s.data

/-- Literal (non-regex) prefix equality of character lists. -/
def frontEq : List Char → List Char → Bool
  | [], _ => true
  | _ :: _, [] => false
  | a :: as_, b :: bs => a = b && frontEq as_ bs

/-- Literal unanchored containment of `q` in the text. -/
def sublistSearch (q : List Char) : List Char → Bool
  | [] => frontEq q []
  | c :: cs => frontEq q (c :: cs) || sublistSearch q cs

/-- Case-insensitive substring containment (the relation the spec names). -/
def containsCI (q s : String) : Bool :=
  sublistSearch (q.data.map Char.toLower) (s.data.map Char.toLower)

/-- PCRE metacharacters; a pattern free of them is a literal string. -/
def isRegexMeta (c : Char) : Bool :=
  c = '.' || c = '^' || c = '$' || c = '*' || c = '+' || c = '?' || c = '(' ||
  c = ')' || c = '[' || c = ']' || c = '\x7b' || c = '\x7d' || c = '|' || c = '\\'

/-- A single field constraint of a MongoDB filter document, for the fragment
the code uses. -/
inductive FSpec where
  | feq (v : Value)
  | fregexI (pat : String)
deriving DecidableEq

/-- MongoDB matching of one field constraint against a document. -/
def matchSpec (d : Doc) (k : String) : FSpec → Bool
  | .feq v =>
      match dictGet d k with
      | some w =>
          (if w = v then true
           else match w, v with
                | vStrList l, vStr s => l.contains s
                | _, _ => false)
      | none => v = vNull
  | .fregexI pat =>
      match dictGet d k with
      | some (vStr t) => regexSearchI pat t
      | _ => false

/-- MongoDB matching of a whole filter document. -/
def matchFilter (f : List (String × FSpec)) (d : Doc) : Bool :=
  f.all (fun ks => matchSpec d ks.1 ks.2)

/-- The state of one collection: its documents in insertion (natural) order,
plus the generator state for fresh ObjectIds. -/
structure Coll where
  docs : List Doc
  nextId : Nat
deriving DecidableEq

/-- Modelled from the spec: `database.create_document` (the Document Store
Adapter's `create`, whose source file `database.py` is not under `src/`):
it "encodes the entity, generates a new unique identifier, persists the
document, returns the identifier".  The fresh identifier is the generator
counter; the persisted document is the entity's fields under the `_id`
envelope, appended in insertion order. -/
def create_document (st : Coll) (fields : Doc) : Nat × Coll :=
  (st.nextId, ⟨st.docs ++ [("_id", vOid st.nextId) :: fields], st.nextId + 1⟩)

/-- `find_one(filter)`: first matching document in natural order. -/
def findOne (st : Coll) (f : List (String × FSpec)) : Option Doc :=
  st.docs.find? (matchFilter f)

/-- The internal identifier of a document, when it has a well-formed one. -/
def idOf (d : Doc) : Option Nat :=
  match dictGet d "_id" with
  | some (vOid n) => some n
  | _ => none

/-- `update_one(filter, {$set: upd})`: apply `$set` to the first match. -/
def updateFirst : List Doc → (Doc → Bool) → (Doc → Doc) → List Doc
  | [], _, _ => []
  | d :: rest, p, f =>
      if p d then f d :: rest else d :: updateFirst rest p f

/-- Store invariant maintained by the adapter: every document carries an
ObjectId below the generator counter, and identifiers are pairwise distinct. -/
def wfColl (st : Coll) : Bool :=
  st.docs.all (fun d =>
    match idOf d with
    | some n => n < st.nextId
    | none => false) &&
  decide (st.docs.map idOf).Nodup

/-- A FastAPI `HTTPException(status_code, detail)`. -/
structure HTTPError where
  status : Nat
  detail : String
deriving DecidableEq

/-- `main.CourseIn`: the request model for course creation.  `tags` is
`Optional[List[str]] = []`, so its value may be an explicit null. -/
structure CourseIn where
  title : String
  description : String
  instructor_id : String
  tags : Option (List String) := some []
  cover_image : Option String := none
  level : Option String := none
deriving DecidableEq

/-- `main.LessonIn`. -/
structure LessonIn where
  course_id : String
  title : String
  content : Option String := none
  video_url : Option String := none
  order : Int := 1
deriving DecidableEq

/-- `main.EnrollmentIn`. -/
structure EnrollmentIn where
  course_id : String
  user_id : String
  role : String := "student"
deriving DecidableEq

/-- `main.SubmissionIn`. -/
structure SubmissionIn where
  assignment_id : String
  user_id : String
  content : Option String := none
deriving DecidableEq

/-- `model_dump` of an optional string field. -/
def optStr : Option String → Value
  | some s => vStr s
  | none => vNull

/-- `model_dump` of an optional string list (`tags`). -/
def optStrList : Option (List String) → Value
  | some l => vStrList l
  | none => vNull

/-- `course.model_dump()`. -/
def courseDump (c : CourseIn) : Doc :=
  [("title", vStr c.title), ("description", vStr c.description),
   ("instructor_id", vStr c.instructor_id), ("tags", optStrList c.tags),
   ("cover_image", optStr c.cover_image), ("level", optStr c.level)]

/-- `lesson.model_dump()`. -/
def lessonDump (l : LessonIn) : Doc :=
  [("course_id", vStr l.course_id), ("title", vStr l.title),
   ("content", optStr l.content), ("video_url", optStr l.video_url),
   ("order", vInt l.order)]

/-- `enr.model_dump()`. -/
def enrollmentDump (e : EnrollmentIn) : Doc :=
  [("course_id", vStr e.course_id), ("user_id", vStr e.user_id),
   ("role", vStr e.role)]

/-- `item.model_dump()` for a submission. -/
def submissionDump (e : SubmissionIn) : Doc :=
  [("assignment_id", vStr e.assignment_id), ("user_id", vStr e.user_id),
   ("content", optStr e.content)]

/-- The filter `{"course_id": c, "user_id": u}` used by `enroll`. -/
def enrollPair (c u : String) : List (String × FSpec) :=
  [("course_id", .feq (vStr c)), ("user_id", .feq (vStr u))]

/-- The filter `{"assignment_id": a, "user_id": u}` used by `submit`. -/
def submitPair (a u : String) : List (String × FSpec) :=
  [("assignment_id", .feq (vStr a)), ("user_id", .feq (vStr u))]

/-- The filter `{"_id": ObjectId(i)}`. -/
def idFilter (i : Nat) : List (String × FSpec) :=
  [("_id", .feq (vOid i))]

/-- The `_id` value of a document, as Python's `existing["_id"]` reads it. -/
def idValOf (d : Doc) : Value := (dictGet d "_id").getD vNull

/-- Number of stored enrollments matching a `(course_id, user_id)` pair. -/
def countEnrollPair (st : Coll) (c u : String) : Nat :=
  st.docs.countP (matchFilter (enrollPair c u))

/-- Number of stored submissions matching an `(assignment_id, user_id)` pair. -/
def countSubmitPair (st : Coll) (a u : String) : Nat :=
  st.docs.countP (matchFilter (submitPair a u))

/-- The read step of `main.enroll`: the duplicate-enrollment lookup.  This is
the first storage operation of the endpoint; under concurrency the state may
change between this read and `enrollAct`. -/
def enrollCheck (st : Coll) (e : EnrollmentIn) : Option Doc :=
  findOne st (enrollPair e.course_id e.user_id)

/-- The write step of `main.enroll`, acting on the observation made by
`enrollCheck`: return the existing enrollment unchanged, or create a new one
and return it re-read by `_id`. -/
def enrollAct (st : Coll) (e : EnrollmentIn) (existing : Option Doc) :
    Option Doc × Coll :=
  match existing with
  | some d => (some (serialize d), st)
  | none =>
      let r := create_document st (enrollmentDump e)
      ((findOne r.2 (idFilter r.1)).map serialize, r.2)

/-- `main.enroll` (`POST /api/enrollments`), run sequentially: the check and
the act execute with no interleaved writer. -/
def enroll (st : Coll) (e : EnrollmentIn) : Option Doc × Coll :=
  enrollAct st e (enrollCheck st e)

/-- The read step of `main.submit`: the upsert lookup by
`(assignment_id, user_id)`. -/
def submitCheck (st : Coll) (e : SubmissionIn) : Option Doc :=
  findOne st (submitPair e.assignment_id e.user_id)

/-- The write step of `main.submit`: `$set` the dumped fields on the existing
submission and re-read it, or create a new submission. -/
def submitAct (st : Coll) (e : SubmissionIn) (existing : Option Doc) :
    Option Doc × Coll :=
  match existing with
  | some ex =>
      let flt := matchFilter [("_id", .feq (idValOf ex))]
      let docs' := updateFirst st.docs flt (fun d => setAll d (submissionDump e))
      let st' : Coll := ⟨docs', st.nextId⟩
      ((st'.docs.find? flt).map serialize, st')
  | none =>
      let r := create_document st (submissionDump e)
      ((findOne r.2 (idFilter r.1)).map serialize, r.2)

/-- `main.submit` (`POST /api/submissions`), run sequentially. -/
def submit (st : Coll) (e : SubmissionIn) : Option Doc × Coll :=
  submitAct st e (submitCheck st e)

/-- `main.create_course` (`POST /api/courses`): create, then re-read by
`_id` and serialize. -/
def create_course (st : Coll) (c : CourseIn) : Option Doc × Coll :=
  let r := create_document st (courseDump c)
  ((findOne r.2 (idFilter r.1)).map serialize, r.2)

/-- `main.create_lesson` (`POST /api/lessons`). -/
def create_lesson (st : Coll) (l : LessonIn) : Option Doc × Coll :=
  let r := create_document st (lessonDump l)
  ((findOne r.2 (idFilter r.1)).map serialize, r.2)

/-- Mongo's `cursor.limit(n)`: `0` disables the cap, a negative `n` behaves
as its absolute value. -/
def mongoLimit (l : List Doc) (n : Int) : List Doc :=
  if n = 0 then l else l.take n.natAbs

/-- The filter document `main.list_courses` builds from its query params:
a falsy (absent or empty) `q`/`tag` contributes no constraint. -/
def coursesFilter (q tag : Option String) : List (String × FSpec) :=
  (match q with
   | some s => if s = "" then [] else [("title", FSpec.fregexI s)]
   | none => []) ++
  (match tag with
   | some t => if t = "" then [] else [("tags", FSpec.feq (vStr t))]
   | none => [])

/-- `main.list_courses` (`GET /api/courses`). -/
def list_courses (st : Coll) (q tag : Option String) (limit : Int) : List Doc :=
  (mongoLimit (st.docs.filter (matchFilter (coursesFilter q tag))) limit).map
    serialize

/-- `bson.ObjectId(s)` accepts exactly 24-character hex strings. -/
def isValidOidStr (s : String) : Bool :=
  s.length = 24 &&
  s.data.all (fun c =>
    c.isDigit || ('a' ≤ c && c ≤ 'f') || ('A' ≤ c && c ≤ 'F'))

/-- Numeric value of one hex character. -/
def hexCharVal (c : Char) : Nat :=
  if c.isDigit then c.toNat - 48
  else if 'a' ≤ c && c ≤ 'f' then c.toNat - 87
  else c.toNat - 55

/-- Numeric value of a hex string. -/
def hexVal (s : String) : Nat :=
  s.data.foldl (fun acc c => 16 * acc + hexCharVal c) 0

/-- `main.oid`: parse a path id, raising `HTTPException(400)` when
`ObjectId(id_str)` fails. -/
def oid (s : String) : Except HTTPError Nat :=
  if isValidOidStr s then .ok (hexVal s)
  else .error ⟨400, "Invalid id format"⟩

/-- `main.get_course` (`GET /api/courses/{course_id}`): the id is parsed
first (so an ill-formed id fails before any storage access), then the course
is read; an absent course is a 404. -/
def get_course (st : Coll) (course_id : String) : Except HTTPError Doc :=
  match oid course_id with
  | .error e => .error e
  | .ok n =>
      match findOne st (idFilter n) with
      | none => .error ⟨404, "Course not found"⟩
      | some d => .ok (serialize d)

/-- The ascending sort key of `sort("order", 1)`; every lesson the code
stores carries an integer `order`. -/
def orderKey (d : Doc) : Int :=
  match dictGet d "order" with
  | some (vInt n) => n
  | _ => 0

/-- Is the list ascending in `order`? -/
def sortedByOrder : List Doc → Bool
  | [] => true
  | [_] => true
  | a :: b :: rest => orderKey a ≤ orderKey b && sortedByOrder (b :: rest)

/-- `main.list_lessons` (`GET /api/courses/{course_id}/lessons`), modelled
relationally: MongoDB returns some ascending reordering of the matching
documents, with no guarantee on the relative order of equal `order` values;
the endpoint then serializes each document. -/
def list_lessonsRel (st : Coll) (course_id : String) (out : List Doc) : Prop :=
  ∃ r : List Doc,
    r.Perm (st.docs.filter (matchFilter [("course_id", .feq (vStr course_id))])) ∧
    sortedByOrder r = true ∧
    out = r.map serialize

/-- One entry of a pydantic validation error report. -/
structure ValidationErr where
  field : String
  reason : String
deriving DecidableEq

/-- Validation of one required string field of a request body. -/
def reqStrErrs (inp : Doc) (k : String) : List ValidationErr :=
  match dictGet inp k with
  | none => [⟨k, "Field required"⟩]
  | some (vStr _) => []
  | some _ => [⟨k, "Input should be a valid string"⟩]

/-- Validation of one optional (nullable) string field. -/
def optStrErrs (inp : Doc) (k : String) : List ValidationErr :=
  match dictGet inp k with
  | none => []
  | some (vStr _) => []
  | some vNull => []
  | some _ => [⟨k, "Input should be a valid string"⟩]

/-- Validation of the optional `tags` list field. -/
def tagsErrs (inp : Doc) : List ValidationErr :=
  match dictGet inp "tags" with
  | none => []
  | some (vStrList _) => []
  | some vNull => []
  | some _ => [⟨"tags", "Input should be a valid list"⟩]

/-- All validation errors pydantic reports for a `CourseIn` body. -/
def courseInErrs (inp : Doc) : List ValidationErr :=
  reqStrErrs inp "title" ++ reqStrErrs inp "description" ++
  reqStrErrs inp "instructor_id" ++ tagsErrs inp ++
  optStrErrs inp "cover_image" ++ optStrErrs inp "level"

/-- Field extraction for a body that passed validation. -/
def getStrD (inp : Doc) (k : String) : String :=
  match dictGet inp k with
  | some (vStr s) => s
  | _ => ""

/-- Optional-string extraction for a validated body. -/
def getOptStr (inp : Doc) (k : String) : Option String :=
  match dictGet inp k with
  | some (vStr s) => some s
  | _ => none

/-- `tags` extraction for a validated body: an omitted field takes the
schema default `[]`, an explicit null stays null. -/
def getTags (inp : Doc) : Option (List String) :=
  match dictGet inp "tags" with
  | some (vStrList l) => some l
  | some vNull => none
  | _ => some []

/-- FastAPI/pydantic parsing of a `CourseIn` request body: reject with the
full error report, or produce the typed model with defaults filled. -/
def parseCourseIn (inp : Doc) : Except (List ValidationErr) CourseIn :=
  match courseInErrs inp with
  | [] => .ok
      { title := getStrD inp "title"
        description := getStrD inp "description"
        instructor_id := getStrD inp "instructor_id"
        tags := getTags inp
        cover_image := getOptStr inp "cover_image"
        level := getOptStr inp "level" }
  | errs => .error errs

/-- The full `POST /api/courses` path: body validation happens before the
handler runs, so a rejected body leaves the store untouched. -/
def create_course_endpoint (st : Coll) (inp : Doc) :
    Except (List ValidationErr) (Option Doc) × Coll :=
  match parseCourseIn inp with
  | .error e => (.error e, st)
  | .ok c =>
      let r := create_course st c
      (.ok r.1, r.2)

/-! ## Basic dictionary lemmas -/

theorem dictGet_dictSet_self (d : Doc) (k : String) (v : Value) :
    dictGet (dictSet d k v) k = some v := by
  induction d with
  | nil => simp [dictSet, dictGet]
  | cons kv rest ih =>
      by_cases h : kv.1 = k
      · simp [dictSet, h, dictGet]
      · simp [dictSet, h, dictGet, ih]

theorem dictGet_dictSet_ne (d : Doc) (k k' : String) (v : Value)
    (h : k' ≠ k) : dictGet (dictSet d k v) k' = dictGet d k' := by
  induction d with
  | nil =>
      simp only [dictSet, dictGet]
      rw [if_neg (fun hh => h hh.symm)]
  | cons kv rest ih =>
      obtain ⟨k0, v0⟩ := kv
      by_cases hk : k0 = k
      · subst hk
        simp only [dictSet, if_pos rfl, dictGet]
        rw [if_neg (fun hh => h hh.symm), if_neg (fun hh => h hh.symm)]
      · simp only [dictSet, if_neg hk, dictGet]
        by_cases hkk : k0 = k'
        · rw [if_pos hkk, if_pos hkk]
        · rw [if_neg hkk, if_neg hkk, ih]

theorem dictGet_dictPop_ne (d : Doc) (k k' : String) (h : k' ≠ k) :
    dictGet (dictPop d k) k' = dictGet d k' := by
  induction d with
  | nil => rfl
  | cons kv rest ih =>
      obtain ⟨k0, v0⟩ := kv
      by_cases hk : k0 = k
      · have hpop : dictPop ((k0, v0) :: rest) k = dictPop rest k := by
          simp [dictPop, List.filter, hk]
        have hk0 : k0 ≠ k' := by rw [hk]; exact fun hh => h hh.symm
        rw [hpop, ih]
        simp [dictGet, hk0]
      · have hpop : dictPop ((k0, v0) :: rest) k = (k0, v0) :: dictPop rest k := by
          simp [dictPop, List.filter, hk]
        rw [hpop]
        by_cases hkk : k0 = k'
        · simp [dictGet, hkk]
        · simp [dictGet, hkk, ih]

theorem dictGet_mapVal (d : Doc) (g : Value → Value) (k : String) :
    dictGet (d.map (fun kv => (kv.1, g kv.2))) k = (dictGet d k).map g := by
  induction d with
  | nil => simp [dictGet]
  | cons kv rest ih =>
      by_cases h : kv.1 = k
      · simp [dictGet, h]
      · simp [dictGet, h, ih]

/-! ## `serialize` lemmas -/

theorem isofy_eq_self (v : Value) (h : ∀ s, v ≠ Value.vDateTime s) :
    isofy v = v := by
  cases v
  case vDateTime s => exact absurd rfl (h s)
  all_goals rfl

theorem serialize_get_ne (doc : Doc) (k : String)
    (h1 : k ≠ "_id") (h2 : k ≠ "id") :
    dictGet (serialize doc) k = (dictGet doc k).map isofy := by
  by_cases hd : doc.isEmpty
  · rw [List.isEmpty_iff] at hd
    subst hd
    rfl
  · unfold serialize
    rw [if_neg hd]
    cases hid : dictGet doc "_id" with
    | none => rw [dictGet_mapVal]
    | some v =>
        rw [dictGet_mapVal, dictGet_dictSet_ne _ _ _ _ h2,
          dictGet_dictPop_ne _ _ _ h1]

theorem serialize_id (doc : Doc) (n : Nat)
    (h : dictGet doc "_id" = some (Value.vOid n)) :
    dictGet (serialize doc) "id" = some (Value.vStr (toHex24 n)) := by
  have hne : doc.isEmpty = false := by
    cases doc with
    | nil => simp [dictGet] at h
    | cons a l => rfl
  unfold serialize
  rw [hne]
  simp only [Bool.false_eq_true, if_false, h]
  rw [dictGet_mapVal, dictGet_dictSet_self]
  rfl

/-! ## ObjectId rendering -/

theorem toHex24_length (n : Nat) : (toHex24 n).length = 24 := by
  simp [toHex24, String.length]

theorem toHex24_ne_empty (n : Nat) : toHex24 n ≠ "" := by
  intro h
  have := toHex24_length n
  rw [h] at this
  simp [String.length] at this

/-! ## Filter matching characterizations -/

theorem matchFilter_idFilter (d : Doc) (n : Nat) :
    matchFilter (idFilter n) d = true ↔ dictGet d "_id" = some (Value.vOid n) := by
  simp only [matchFilter, idFilter, List.all_cons, List.all_nil, Bool.and_true,
    matchSpec]
  cases h : dictGet d "_id" with
  | none => simp
  | some w =>
      by_cases hw : w = Value.vOid n
      · subst hw; simp
      · cases w <;> simp_all

theorem matchFilter_idFilter_eq_idOf (d : Doc) (n : Nat) :
    matchFilter (idFilter n) d = true ↔ idOf d = some n := by
  rw [matchFilter_idFilter]
  unfold idOf
  cases h : dictGet d "_id" with
  | none => simp
  | some w => cases w <;> simp_all

/-! ## `wfColl` extraction and preservation -/

theorem wf_ids_lt {st : Coll} (h : wfColl st = true) {d : Doc}
    (hd : d ∈ st.docs) : ∃ m, idOf d = some m ∧ m < st.nextId := by
  simp only [wfColl, Bool.and_eq_true, List.all_eq_true] at h
  have := h.1 d hd
  cases hm : idOf d with
  | none => rw [hm] at this; simp at this
  | some m =>
      rw [hm] at this
      exact ⟨m, rfl, by simpa using this⟩

theorem wf_nodup {st : Coll} (h : wfColl st = true) :
    (st.docs.map idOf).Nodup := by
  simp only [wfColl, Bool.and_eq_true, decide_eq_true_eq] at h
  exact h.2

theorem idOf_new (i : Nat) (fields : Doc) :
    idOf (("_id", Value.vOid i) :: fields) = some i := by
  simp [idOf, dictGet]

theorem wf_create {st : Coll} (h : wfColl st = true) (fields : Doc) :
    wfColl (create_document st fields).2 = true := by
  simp only [wfColl, Bool.and_eq_true, List.all_eq_true, decide_eq_true_eq]
    at h ⊢
  obtain ⟨hlt, hnd⟩ := h
  refine ⟨?_, ?_⟩
  · intro d hd
    simp only [create_document, List.mem_append, List.mem_singleton] at hd
    simp only [create_document]
    rcases hd with hd | hd
    · have h2 := hlt d hd
      cases hm : idOf d with
      | none => rw [hm] at h2; simp at h2
      | some m =>
          rw [hm] at h2
          simp only [decide_eq_true_eq] at h2
          simp only [hm, decide_eq_true_eq]
          omega
    · subst hd
      simp only [idOf_new]
      simp
  · simp only [create_document, List.map_append, List.map_cons, List.map_nil,
      idOf_new]
    rw [List.nodup_append]
    refine ⟨hnd, List.nodup_singleton _, ?_⟩
    intro x hx
    simp only [List.mem_map] at hx
    obtain ⟨d, hd, hxd⟩ := hx
    have := hlt d hd
    cases hm : idOf d with
    | none => rw [hm] at this; simp at this
    | some m =>
        rw [hm] at this
        simp only [decide_eq_true_eq] at this
        rw [hm] at hxd
        subst hxd
        simp only [List.mem_singleton]
        intro hc
        have : m = st.nextId := by injection hc
        omega

/-! ## `updateFirst` and `find?` interaction -/

theorem updateFirst_of_none {l : List Doc} {p : Doc → Bool}
    (h : l.find? p = none) (f : Doc → Doc) : updateFirst l p f = l := by
  induction l with
  | nil => rfl
  | cons d rest ih =>
      rw [List.find?_eq_none] at h
      have hd : p d = false := by
        have := h d (List.mem_cons_self d rest)
        simpa using this
      simp only [updateFirst, hd, Bool.false_eq_true, if_false]
      rw [ih]
      rw [List.find?_eq_none]
      intro x hx
      exact h x (List.mem_cons_of_mem d hx)

theorem find?_updateFirst {l : List Doc} {p q : Doc → Bool} {E : Doc}
    {f : Doc → Doc}
    (hp : l.find? p = some E) (hq : l.find? q = some E)
    (hfE : q (f E) = true) :
    (updateFirst l p f).find? q = some (f E) := by
  induction l with
  | nil => simp at hp
  | cons d rest ih =>
      by_cases hpd : p d = true
      · rw [List.find?_cons_of_pos _ hpd] at hp
        have hEd : d = E := by injection hp
        subst hEd
        have hu : updateFirst (d :: rest) p f = f d :: rest := by
          simp [updateFirst, hpd]
        rw [hu]
        exact List.find?_cons_of_pos _ hfE
      · have hpd' : p d = false := by simpa using hpd
        rw [List.find?_cons_of_neg _ (by simp [hpd'])] at hp
        have hqd : q d = false := by
          by_contra hc
          have hqd1 : q d = true := by simpa using hc
          rw [List.find?_cons_of_pos _ hqd1] at hq
          have hEd : d = E := by injection hq
          subst hEd
          have hpt : p d = true := List.find?_some hp
          rw [hpt] at hpd'
          exact absurd hpd' (by simp)
        rw [List.find?_cons_of_neg _ (by simp [hqd])] at hq
        have hu : updateFirst (d :: rest) p f = d :: updateFirst rest p f := by
          simp [updateFirst, hpd']
        rw [hu, List.find?_cons_of_neg _ (by simp [hqd])]
        exact ih hp hq

theorem countP_updateFirst {l : List Doc} {p q : Doc → Bool} {f : Doc → Doc}
    (h : ∀ d ∈ l, p d = true → q (f d) = q d) :
    (updateFirst l p f).countP q = l.countP q := by
  induction l with
  | nil => rfl
  | cons d rest ih =>
      by_cases hpd : p d = true
      · have hu : updateFirst (d :: rest) p f = f d :: rest := by
          simp [updateFirst, hpd]
        rw [hu, List.countP_cons, List.countP_cons,
          h d (List.mem_cons_self d rest) hpd]
      · have hpd' : p d = false := by simpa using hpd
        have hu : updateFirst (d :: rest) p f = d :: updateFirst rest p f := by
          simp [updateFirst, hpd']
        rw [hu, List.countP_cons, List.countP_cons, ih]
        intro x hx hpx
        exact h x (List.mem_cons_of_mem d hx) hpx

theorem map_updateFirst {l : List Doc} {p : Doc → Bool} {f : Doc → Doc}
    {g : Doc → Option Nat} (h : ∀ d ∈ l, p d = true → g (f d) = g d) :
    (updateFirst l p f).map g = l.map g := by
  induction l with
  | nil => rfl
  | cons d rest ih =>
      by_cases hpd : p d = true
      · have hu : updateFirst (d :: rest) p f = f d :: rest := by
          simp [updateFirst, hpd]
        rw [hu, List.map_cons, List.map_cons,
          h d (List.mem_cons_self d rest) hpd]
      · have hpd' : p d = false := by simpa using hpd
        have hu : updateFirst (d :: rest) p f = d :: updateFirst rest p f := by
          simp [updateFirst, hpd']
        rw [hu, List.map_cons, List.map_cons, ih]
        intro x hx hpx
        exact h x (List.mem_cons_of_mem d hx) hpx

/-! ## Identifier uniqueness -/

theorem nodup_idOf_inj {l : List Doc} (hnd : (l.map idOf).Nodup)
    {d E : Doc} (hd : d ∈ l) (hE : E ∈ l) {n : Nat}
    (h1 : idOf d = some n) (h2 : idOf E = some n) : d = E :=
  List.inj_on_of_nodup_map hnd hd hE (by rw [h1, h2])

theorem find?_id_of_nodup {l : List Doc} (hnd : (l.map idOf).Nodup)
    {E : Doc} (hE : E ∈ l) {n : Nat} (hid : idOf E = some n) :
    l.find? (matchFilter (idFilter n)) = some E := by
  induction l with
  | nil => simp at hE
  | cons d rest ih =>
      simp only [List.map_cons, List.nodup_cons] at hnd
      by_cases hm : matchFilter (idFilter n) d = true
      · rw [List.find?_cons_of_pos _ hm]
        have hdn : idOf d = some n := (matchFilter_idFilter_eq_idOf d n).mp hm
        rcases List.mem_cons.mp hE with hE | hE
        · rw [hE]
        · exfalso
          apply hnd.1
          rw [hdn, ← hid]
          exact List.mem_map_of_mem idOf hE
      · have hm' : matchFilter (idFilter n) d = false := by simpa using hm
        rw [List.find?_cons_of_neg _ (by simp [hm'])]
        rcases List.mem_cons.mp hE with hE | hE
        · exact absurd ((matchFilter_idFilter_eq_idOf d n).mpr (hE ▸ hid)) hm
        · exact ih hnd.2 hE

theorem find?_fresh_none {st : Coll} (h : wfColl st = true) {i : Nat}
    (hi : st.nextId ≤ i) :
    st.docs.find? (matchFilter (idFilter i)) = none := by
  rw [List.find?_eq_none]
  intro d hd
  intro hm
  obtain ⟨m, hm1, hm2⟩ := wf_ids_lt h hd
  have := (matchFilter_idFilter_eq_idOf d i).mp hm
  rw [hm1] at this
  have : m = i := by injection this
  omega

/-! ## Matching the documents the endpoints build -/

theorem idOf_eq_some_iff (d : Doc) (m : Nat) :
    idOf d = some m ↔ dictGet d "_id" = some (Value.vOid m) := by
  unfold idOf
  cases h : dictGet d "_id" with
  | none => simp
  | some w => cases w <;> simp

theorem matchFilter_enrollPair_dump (c u : String) (i : Nat) (e : EnrollmentIn) :
    matchFilter (enrollPair c u) (("_id", Value.vOid i) :: enrollmentDump e) =
      (decide (e.course_id = c) && decide (e.user_id = u)) := by
  simp only [matchFilter, enrollPair, List.all_cons, List.all_nil,
    Bool.and_true, matchSpec, enrollmentDump, dictGet]
  norm_num
  by_cases h1 : e.course_id = c <;> by_cases h2 : e.user_id = u <;>
    simp [h1, h2]

theorem matchFilter_submitPair_dump (a u : String) (i : Nat) (e : SubmissionIn) :
    matchFilter (submitPair a u) (("_id", Value.vOid i) :: submissionDump e) =
      (decide (e.assignment_id = a) && decide (e.user_id = u)) := by
  simp only [matchFilter, submitPair, List.all_cons, List.all_nil,
    Bool.and_true, matchSpec, submissionDump, dictGet]
  norm_num
  by_cases h1 : e.assignment_id = a <;> by_cases h2 : e.user_id = u <;>
    simp [h1, h2]

theorem setAll_submissionDump (E : Doc) (e : SubmissionIn) :
    setAll E (submissionDump e) =
      dictSet (dictSet (dictSet E "assignment_id" (Value.vStr e.assignment_id))
        "user_id" (Value.vStr e.user_id)) "content" (optStr e.content) := rfl

theorem setAll_sub_assignment (E : Doc) (e : SubmissionIn) :
    dictGet (setAll E (submissionDump e)) "assignment_id" =
      some (Value.vStr e.assignment_id) := by
  rw [setAll_submissionDump,
    dictGet_dictSet_ne _ _ _ _ (by decide),
    dictGet_dictSet_ne _ _ _ _ (by decide),
    dictGet_dictSet_self]

theorem setAll_sub_user (E : Doc) (e : SubmissionIn) :
    dictGet (setAll E (submissionDump e)) "user_id" =
      some (Value.vStr e.user_id) := by
  rw [setAll_submissionDump,
    dictGet_dictSet_ne _ _ _ _ (by decide),
    dictGet_dictSet_self]

theorem setAll_sub_content (E : Doc) (e : SubmissionIn) :
    dictGet (setAll E (submissionDump e)) "content" = some (optStr e.content) := by
  rw [setAll_submissionDump, dictGet_dictSet_self]

theorem setAll_sub_frame (E : Doc) (e : SubmissionIn) (k : String)
    (h1 : k ≠ "assignment_id") (h2 : k ≠ "user_id") (h3 : k ≠ "content") :
    dictGet (setAll E (submissionDump e)) k = dictGet E k := by
  rw [setAll_submissionDump, dictGet_dictSet_ne _ _ _ _ h3,
    dictGet_dictSet_ne _ _ _ _ h2, dictGet_dictSet_ne _ _ _ _ h1]

theorem idOf_setAll_sub (E : Doc) (e : SubmissionIn) :
    idOf (setAll E (submissionDump e)) = idOf E := by
  unfold idOf
  rw [setAll_sub_frame E e "_id" (by decide) (by decide) (by decide)]

theorem matchFilter_submitPair_setAll (a u : String) (E : Doc)
    (e : SubmissionIn) :
    matchFilter (submitPair a u) (setAll E (submissionDump e)) =
      (decide (e.assignment_id = a) && decide (e.user_id = u)) := by
  simp only [matchFilter, submitPair, List.all_cons, List.all_nil,
    Bool.and_true, matchSpec, setAll_sub_assignment, setAll_sub_user]
  by_cases h1 : e.assignment_id = a <;> by_cases h2 : e.user_id = u <;>
    simp [h1, h2]

/-! ## Branch behaviour of `enroll` and `submit` -/

theorem enroll_found {st : Coll} {e : EnrollmentIn} {d : Doc}
    (hchk : enrollCheck st e = some d) :
    enroll st e = (some (serialize d), st) := by
  unfold enroll enrollAct
  rw [hchk]

theorem enroll_not_found {st : Coll} {e : EnrollmentIn}
    (hwf : wfColl st = true) (hchk : enrollCheck st e = none) :
    enroll st e =
      (some (serialize (("_id", Value.vOid st.nextId) :: enrollmentDump e)),
       ⟨st.docs ++ [("_id", Value.vOid st.nextId) :: enrollmentDump e],
        st.nextId + 1⟩) := by
  unfold enroll enrollAct
  rw [hchk]
  simp only [create_document, findOne, List.find?_append]
  rw [find?_fresh_none hwf (Nat.le_refl _)]
  rw [List.find?_cons_of_pos _
    ((matchFilter_idFilter_eq_idOf _ _).mpr (idOf_new _ _))]
  rfl

theorem submit_found {st : Coll} {e : SubmissionIn} {E : Doc}
    (hwf : wfColl st = true) (hchk : submitCheck st e = some E) :
    submit st e =
      (some (serialize (setAll E (submissionDump e))),
       ⟨updateFirst st.docs (matchFilter [("_id", FSpec.feq (idValOf E))])
          (fun d => setAll d (submissionDump e)), st.nextId⟩) := by
  have hmem : E ∈ st.docs := List.mem_of_find?_eq_some hchk
  obtain ⟨m, hm, _⟩ := wf_ids_lt hwf hmem
  have hidv : idValOf E = Value.vOid m := by
    unfold idValOf
    rw [(idOf_eq_some_iff E m).mp hm]
    rfl
  have hflt : ([("_id", FSpec.feq (idValOf E))] : List (String × FSpec)) =
      idFilter m := by rw [hidv]; rfl
  have hfind : st.docs.find? (matchFilter (idFilter m)) = some E :=
    find?_id_of_nodup (wf_nodup hwf) hmem hm
  unfold submit submitAct
  rw [hchk]
  simp only [hflt]
  rw [find?_updateFirst hfind hfind
    ((matchFilter_idFilter_eq_idOf _ _).mpr
      (by rw [idOf_setAll_sub]; exact hm))]
  rfl

theorem submit_not_found {st : Coll} {e : SubmissionIn}
    (hwf : wfColl st = true) (hchk : submitCheck st e = none) :
    submit st e =
      (some (serialize (("_id", Value.vOid st.nextId) :: submissionDump e)),
       ⟨st.docs ++ [("_id", Value.vOid st.nextId) :: submissionDump e],
        st.nextId + 1⟩) := by
  unfold submit submitAct
  rw [hchk]
  simp only [create_document, findOne, List.find?_append]
  rw [find?_fresh_none hwf (Nat.le_refl _)]
  rw [List.find?_cons_of_pos _
    ((matchFilter_idFilter_eq_idOf _ _).mpr (idOf_new _ _))]
  rfl

/-- C1: for every sequential pair of `enroll` calls with the same
`(course_id, user_id)`, after both calls exactly one enrollment record for
the pair is stored, the second call leaves the store unchanged (so a
different `role` on the second call is never applied), and the second call
returns the same view — in particular the same `id` — as the first. -/
theorem C1_enroll_idempotent (st : Coll) (e1 e2 : EnrollmentIn)
    (hc : e2.course_id = e1.course_id) (hu : e2.user_id = e1.user_id)
    (hwf : wfColl st = true)
    (hcount : countEnrollPair st e1.course_id e1.user_id ≤ 1) :
    countEnrollPair (enroll (enroll st e1).2 e2).2 e1.course_id e1.user_id = 1 ∧
    (enroll (enroll st e1).2 e2).2 = (enroll st e1).2 ∧
    ∃ v : Doc, (enroll st e1).1 = some v ∧
      (enroll (enroll st e1).2 e2).1 = some v ∧ (dictGet v "id").isSome := by
  have hchk2eq : ∀ s : Coll, enrollCheck s e2 = enrollCheck s e1 := by
    intro s
    unfold enrollCheck
    rw [hc, hu]
  cases hchk : enrollCheck st e1 with
  | some d =>
      have h1 : enroll st e1 = (some (serialize d), st) := enroll_found hchk
      have hchk2 : enrollCheck st e2 = some d := by rw [hchk2eq]; exact hchk
      have h2 : enroll st e2 = (some (serialize d), st) := enroll_found hchk2
      have hmem : d ∈ st.docs := List.mem_of_find?_eq_some hchk
      have hpm : matchFilter (enrollPair e1.course_id e1.user_id) d = true :=
        List.find?_some hchk
      obtain ⟨m, hm, _⟩ := wf_ids_lt hwf hmem
      rw [h1]
      refine ⟨?_, ?_, serialize d, rfl, ?_, ?_⟩
      · show countEnrollPair (enroll st e2).2 e1.course_id e1.user_id = 1
        rw [h2]
        show countEnrollPair st e1.course_id e1.user_id = 1
        have hpos : 0 < countEnrollPair st e1.course_id e1.user_id :=
          List.countP_pos_iff.mpr ⟨d, hmem, hpm⟩
        omega
      · show (enroll st e2).2 = st
        rw [h2]
      · show (enroll st e2).1 = some (serialize d)
        rw [h2]
      · rw [serialize_id d m ((idOf_eq_some_iff d m).mp hm)]
        rfl
  | none =>
      have h1 := enroll_not_found hwf hchk
      have hpmnd :
          matchFilter (enrollPair e1.course_id e1.user_id)
            (("_id", Value.vOid st.nextId) :: enrollmentDump e1) = true := by
        rw [matchFilter_enrollPair_dump]
        simp
      have hchk2 :
          enrollCheck (enroll st e1).2 e2 =
            some (("_id", Value.vOid st.nextId) :: enrollmentDump e1) := by
        rw [hchk2eq, h1]
        unfold enrollCheck findOne
        rw [List.find?_append]
        have hnone : st.docs.find?
            (matchFilter (enrollPair e1.course_id e1.user_id)) = none := hchk
        rw [hnone, List.find?_cons_of_pos _ hpmnd]
        rfl
      have h2 := enroll_found hchk2
      have hzero : st.docs.countP
          (matchFilter (enrollPair e1.course_id e1.user_id)) = 0 := by
        have hchk' : st.docs.find?
            (matchFilter (enrollPair e1.course_id e1.user_id)) = none := hchk
        rw [List.find?_eq_none] at hchk'
        rw [List.countP_eq_zero]
        exact hchk'
      refine ⟨?_, ?_, serialize (("_id", Value.vOid st.nextId) ::
        enrollmentDump e1), ?_, ?_, ?_⟩
      · rw [h2, h1]
        show (⟨st.docs ++ [("_id", Value.vOid st.nextId) :: enrollmentDump e1],
          st.nextId + 1⟩ : Coll).docs.countP
            (matchFilter (enrollPair e1.course_id e1.user_id)) = 1
        rw [List.countP_append, hzero, List.countP_cons]
        simp [hpmnd]
      · rw [h2]
      · rw [h1]
      · rw [h2]
      · rw [serialize_id _ st.nextId (by simp [dictGet])]
        rfl

/-- Witness for C1 at a concrete store and concrete enrollment calls. -/
theorem C1_enroll_idempotent_witness :
    countEnrollPair
        (enroll (enroll ⟨[], 0⟩ ⟨"c1", "u1", "student"⟩).2
          ⟨"c1", "u1", "ta"⟩).2 "c1" "u1" = 1 ∧
    (enroll (enroll ⟨[], 0⟩ ⟨"c1", "u1", "student"⟩).2
        ⟨"c1", "u1", "ta"⟩).2 = (enroll ⟨[], 0⟩ ⟨"c1", "u1", "student"⟩).2 ∧
    ∃ v : Doc, (enroll ⟨[], 0⟩ ⟨"c1", "u1", "student"⟩).1 = some v ∧
      (enroll (enroll ⟨[], 0⟩ ⟨"c1", "u1", "student"⟩).2
          ⟨"c1", "u1", "ta"⟩).1 = some v ∧ (dictGet v "id").isSome :=
  C1_enroll_idempotent ⟨[], 0⟩ ⟨"c1", "u1", "student"⟩ ⟨"c1", "u1", "ta"⟩
    rfl rfl (by decide) (by decide)

/-! ## More `updateFirst` structure -/

theorem updateFirst_append_left {l1 l2 : List Doc} {p : Doc → Bool}
    {f : Doc → Doc} (h : l1.find? p = none) :
    updateFirst (l1 ++ l2) p f = l1 ++ updateFirst l2 p f := by
  induction l1 with
  | nil => rfl
  | cons d rest ih =>
      rw [List.find?_eq_none] at h
      have hd : p d = false := by
        have := h d (List.mem_cons_self d rest)
        simpa using this
      have hu : updateFirst ((d :: rest) ++ l2) p f =
          d :: updateFirst (rest ++ l2) p f := by
        simp [updateFirst, hd]
      rw [hu, List.cons_append, ih]
      rw [List.find?_eq_none]
      intro x hx
      exact h x (List.mem_cons_of_mem d hx)

theorem wfColl_eq_map (st : Coll) :
    wfColl st =
      ((st.docs.map idOf).all (fun o =>
        match o with
        | some n => decide (n < st.nextId)
        | none => false) && decide (st.docs.map idOf).Nodup) := by
  unfold wfColl
  have h : ∀ l : List Doc,
      l.all (fun d =>
        match idOf d with
        | some n => decide (n < st.nextId)
        | none => false) =
      (l.map idOf).all (fun o =>
        match o with
        | some n => decide (n < st.nextId)
        | none => false) := by
    intro l
    induction l with
    | nil => rfl
    | cons d rest ih => simp only [List.all_cons, List.map_cons, ih]
  rw [h]

theorem wf_updateFirst {st : Coll} (hwf : wfColl st = true) {p : Doc → Bool}
    {f : Doc → Doc} (hf : ∀ d, idOf (f d) = idOf d) :
    wfColl ⟨updateFirst st.docs p f, st.nextId⟩ = true := by
  rw [wfColl_eq_map] at hwf ⊢
  have hmap : (updateFirst st.docs p f).map idOf = st.docs.map idOf :=
    map_updateFirst (fun d _ _ => hf d)
  simpa [hmap] using hwf

/-- C2: two sequential `submit` calls with the same
`(assignment_id, user_id)` and different contents leave exactly one
submission record for the pair; its `content` is the second call's value and
its serialized `id` equals the `id` the first call returned. -/
theorem C2_submit_upsert (st : Coll) (e1 e2 : SubmissionIn)
    (ha : e2.assignment_id = e1.assignment_id) (hu : e2.user_id = e1.user_id)
    (_hne : e2.content ≠ e1.content)
    (hwf : wfColl st = true)
    (hcount : countSubmitPair st e1.assignment_id e1.user_id ≤ 1) :
    countSubmitPair (submit (submit st e1).2 e2).2
        e1.assignment_id e1.user_id = 1 ∧
    ∃ R v1 : Doc,
      (submit (submit st e1).2 e2).2.docs.find?
          (matchFilter (submitPair e1.assignment_id e1.user_id)) = some R ∧
      dictGet R "content" = some (optStr e2.content) ∧
      (submit st e1).1 = some v1 ∧
      dictGet (serialize R) "id" = dictGet v1 "id" ∧
      (dictGet v1 "id").isSome := by
  have hchk2eq : ∀ s : Coll, submitCheck s e2 = submitCheck s e1 := by
    intro s
    unfold submitCheck
    rw [ha, hu]
  cases hchk : submitCheck st e1 with
  | none =>
      have h1 := submit_not_found hwf hchk
      have hwf1 : wfColl ⟨st.docs ++
          [("_id", Value.vOid st.nextId) :: submissionDump e1],
          st.nextId + 1⟩ = true := wf_create hwf (submissionDump e1)
      have hpm1 : matchFilter (submitPair e1.assignment_id e1.user_id)
          (("_id", Value.vOid st.nextId) :: submissionDump e1) = true := by
        rw [matchFilter_submitPair_dump]
        simp
      have hnone : st.docs.find?
          (matchFilter (submitPair e1.assignment_id e1.user_id)) = none := hchk
      have hchkA : submitCheck (submit st e1).2 e2 =
          some (("_id", Value.vOid st.nextId) :: submissionDump e1) := by
        rw [hchk2eq, h1]
        unfold submitCheck findOne
        rw [List.find?_append, hnone, List.find?_cons_of_pos _ hpm1]
        rfl
      have hwf1' : wfColl (submit st e1).2 = true := by rw [h1]; exact hwf1
      have h2 := submit_found hwf1' hchkA
      have hidv : idValOf (("_id", Value.vOid st.nextId) ::
          submissionDump e1) = Value.vOid st.nextId := rfl
      have hflt : ([("_id", FSpec.feq (idValOf (("_id", Value.vOid st.nextId)
          :: submissionDump e1)))] : List (String × FSpec)) =
          idFilter st.nextId := by rw [hidv]; rfl
      rw [hflt] at h2
      have hmatchnd : matchFilter (idFilter st.nextId)
          (("_id", Value.vOid st.nextId) :: submissionDump e1) = true :=
        (matchFilter_idFilter_eq_idOf _ _).mpr (idOf_new _ _)
      have hupd : updateFirst (st.docs ++
            [("_id", Value.vOid st.nextId) :: submissionDump e1])
            (matchFilter (idFilter st.nextId))
            (fun d => setAll d (submissionDump e2)) =
          st.docs ++ [setAll (("_id", Value.vOid st.nextId) ::
            submissionDump e1) (submissionDump e2)] := by
        rw [updateFirst_append_left (find?_fresh_none hwf (Nat.le_refl _))]
        simp [updateFirst, hmatchnd]
      have hs2 : (submit (submit st e1).2 e2).2.docs =
          st.docs ++ [setAll (("_id", Value.vOid st.nextId) ::
            submissionDump e1) (submissionDump e2)] := by
        rw [h2]
        show updateFirst (submit st e1).2.docs _ _ = _
        rw [h1]
        exact hupd
      have hpmR : matchFilter (submitPair e1.assignment_id e1.user_id)
          (setAll (("_id", Value.vOid st.nextId) :: submissionDump e1)
            (submissionDump e2)) = true := by
        rw [matchFilter_submitPair_setAll]
        simp [ha, hu]
      constructor
      · show (submit (submit st e1).2 e2).2.docs.countP _ = 1
        rw [hs2, List.countP_append]
        have hz : st.docs.countP
            (matchFilter (submitPair e1.assignment_id e1.user_id)) = 0 := by
          rw [List.countP_eq_zero]
          rw [List.find?_eq_none] at hnone
          exact hnone
        rw [hz, List.countP_cons]
        simp [hpmR]
      · refine ⟨setAll (("_id", Value.vOid st.nextId) :: submissionDump e1)
          (submissionDump e2),
          serialize (("_id", Value.vOid st.nextId) :: submissionDump e1),
          ?_, ?_, ?_, ?_, ?_⟩
        · rw [hs2, List.find?_append]
          rw [List.find?_eq_none.mpr (by
            rw [List.find?_eq_none] at hnone
            exact hnone), List.find?_cons_of_pos _ hpmR]
          rfl
        · exact setAll_sub_content _ _
        · rw [h1]
        · rw [serialize_id _ st.nextId (by
            rw [← idOf_eq_some_iff, idOf_setAll_sub]
            exact idOf_new _ _),
            serialize_id _ st.nextId (by
            rw [← idOf_eq_some_iff]
            exact idOf_new _ _)]
        · rw [serialize_id _ st.nextId (by
            rw [← idOf_eq_some_iff]
            exact idOf_new _ _)]
          rfl
  | some E =>
      have hmem : E ∈ st.docs := List.mem_of_find?_eq_some hchk
      have hpmE : matchFilter (submitPair e1.assignment_id e1.user_id) E =
        true := List.find?_some hchk
      obtain ⟨m, hm, _⟩ := wf_ids_lt hwf hmem
      have hidvE : idValOf E = Value.vOid m := by
        unfold idValOf
        rw [(idOf_eq_some_iff E m).mp hm]
        rfl
      have hflt1 : ([("_id", FSpec.feq (idValOf E))] :
          List (String × FSpec)) = idFilter m := by rw [hidvE]; rfl
      have hfindid : st.docs.find? (matchFilter (idFilter m)) = some E :=
        find?_id_of_nodup (wf_nodup hwf) hmem hm
      have h1 := submit_found hwf hchk
      rw [hflt1] at h1
      have hidR1 : idOf (setAll E (submissionDump e1)) = some m := by
        rw [idOf_setAll_sub]
        exact hm
      have hwf1 : wfColl ⟨updateFirst st.docs (matchFilter (idFilter m))
          (fun d => setAll d (submissionDump e1)), st.nextId⟩ = true :=
        wf_updateFirst hwf (fun d => idOf_setAll_sub d e1)
      have hwf1' : wfColl (submit st e1).2 = true := by rw [h1]; exact hwf1
      have hfind1 : (updateFirst st.docs (matchFilter (idFilter m))
            (fun d => setAll d (submissionDump e1))).find?
            (matchFilter (idFilter m)) = some (setAll E (submissionDump e1)) :=
        find?_updateFirst hfindid hfindid
          ((matchFilter_idFilter_eq_idOf _ _).mpr hidR1)
      have hpmR1 : matchFilter (submitPair e1.assignment_id e1.user_id)
          (setAll E (submissionDump e1)) = true := by
        rw [matchFilter_submitPair_setAll]
        simp
      have hchkA1 : submitCheck (submit st e1).2 e1 =
          some (setAll E (submissionDump e1)) := by
        rw [h1]
        unfold submitCheck findOne
        exact find?_updateFirst hfindid hchk hpmR1
      have hchkA : submitCheck (submit st e1).2 e2 =
          some (setAll E (submissionDump e1)) := by
        rw [hchk2eq]
        exact hchkA1
      have h2 := submit_found hwf1' hchkA
      have hidvR1 : idValOf (setAll E (submissionDump e1)) =
          Value.vOid m := by
        unfold idValOf
        rw [(idOf_eq_some_iff _ m).mp hidR1]
        rfl
      have hflt2 : ([("_id", FSpec.feq (idValOf (setAll E
          (submissionDump e1))))] : List (String × FSpec)) = idFilter m := by
        rw [hidvR1]; rfl
      rw [hflt2] at h2
      have hidR2 : idOf (setAll (setAll E (submissionDump e1))
          (submissionDump e2)) = some m := by
        rw [idOf_setAll_sub]
        exact hidR1
      have hpmR2 : matchFilter (submitPair e1.assignment_id e1.user_id)
          (setAll (setAll E (submissionDump e1)) (submissionDump e2)) =
          true := by
        rw [matchFilter_submitPair_setAll]
        simp [ha, hu]
      have hs2 : (submit (submit st e1).2 e2).2.docs =
          updateFirst ((submit st e1).2.docs) (matchFilter (idFilter m))
            (fun d => setAll d (submissionDump e2)) := by
        rw [h2]
      have hcnt1 : ((submit st e1).2.docs).countP
          (matchFilter (submitPair e1.assignment_id e1.user_id)) =
          st.docs.countP
            (matchFilter (submitPair e1.assignment_id e1.user_id)) := by
        rw [h1]
        show (updateFirst st.docs _ _).countP _ = _
        apply countP_updateFirst
        intro d hd hpd
        have hdE : d = E := nodup_idOf_inj (wf_nodup hwf) hd hmem
          ((matchFilter_idFilter_eq_idOf d m).mp hpd) hm
        subst hdE
        rw [hpmR1, hpmE]
      constructor
      · show (submit (submit st e1).2 e2).2.docs.countP _ = 1
        rw [hs2]
        rw [countP_updateFirst (by
          intro d hd hpd
          have hfmem : setAll E (submissionDump e1) ∈ (submit st e1).2.docs :=
            by
              rw [h1]
              exact List.mem_of_find?_eq_some hfind1
          have hdR1 : d = setAll E (submissionDump e1) :=
            nodup_idOf_inj (wf_nodup hwf1') hd hfmem
              ((matchFilter_idFilter_eq_idOf d m).mp hpd) hidR1
          subst hdR1
          rw [hpmR2, hpmR1])]
        rw [hcnt1]
        have hpos : 0 < st.docs.countP
            (matchFilter (submitPair e1.assignment_id e1.user_id)) :=
          List.countP_pos_iff.mpr ⟨E, hmem, hpmE⟩
        have hle : st.docs.countP
            (matchFilter (submitPair e1.assignment_id e1.user_id)) ≤ 1 :=
          hcount
        omega
      · refine ⟨setAll (setAll E (submissionDump e1)) (submissionDump e2),
          serialize (setAll E (submissionDump e1)), ?_, ?_, ?_, ?_, ?_⟩
        · rw [hs2]
          have hfind1' : ((submit st e1).2.docs).find?
              (matchFilter (idFilter m)) =
              some (setAll E (submissionDump e1)) := by
            rw [h1]
            exact hfind1
          have hchkA' : ((submit st e1).2.docs).find?
              (matchFilter (submitPair e1.assignment_id e1.user_id)) =
              some (setAll E (submissionDump e1)) := hchkA1
          exact find?_updateFirst hfind1' hchkA' hpmR2
        · exact setAll_sub_content _ _
        · rw [h1]
        · rw [serialize_id _ m ((idOf_eq_some_iff _ m).mp hidR2),
            serialize_id _ m ((idOf_eq_some_iff _ m).mp hidR1)]
        · rw [serialize_id _ m ((idOf_eq_some_iff _ m).mp hidR1)]
          rfl

/-- Witness for C2 at an empty store with two concrete submissions. -/
theorem C2_submit_upsert_witness :
    countSubmitPair (submit (submit ⟨[], 0⟩ ⟨"a1", "u1", some "v1"⟩).2
        ⟨"a1", "u1", some "v2"⟩).2 "a1" "u1" = 1 ∧
    ∃ R v1 : Doc,
      (submit (submit ⟨[], 0⟩ ⟨"a1", "u1", some "v1"⟩).2
          ⟨"a1", "u1", some "v2"⟩).2.docs.find?
          (matchFilter (submitPair "a1" "u1")) = some R ∧
      dictGet R "content" = some (optStr (some "v2")) ∧
      (submit ⟨[], 0⟩ ⟨"a1", "u1", some "v1"⟩).1 = some v1 ∧
      dictGet (serialize R) "id" = dictGet v1 "id" ∧
      (dictGet v1 "id").isSome :=
  C2_submit_upsert ⟨[], 0⟩ ⟨"a1", "u1", some "v1"⟩ ⟨"a1", "u1", some "v2"⟩
    rfl rfl (by decide) (by decide) (by decide)

/-- C5: when `submit` hits an existing `(assignment_id, user_id)` record,
the updated stored record keeps the identifier, `grade` and `feedback` (and
every field other than the dumped ones) unchanged, and only the mutable
submission fields are overwritten, with `content` set to the call's value. -/
theorem C5_submit_frame (st : Coll) (e : SubmissionIn) (E : Doc)
    (hwf : wfColl st = true) (hchk : submitCheck st e = some E) :
    ∃ R : Doc,
      (submit st e).1 = some (serialize R) ∧
      (submit st e).2.docs.find?
        (matchFilter (submitPair e.assignment_id e.user_id)) = some R ∧
      idOf R = idOf E ∧
      dictGet R "grade" = dictGet E "grade" ∧
      dictGet R "feedback" = dictGet E "feedback" ∧
      dictGet R "content" = some (optStr e.content) ∧
      ∀ k : String, k ≠ "assignment_id" → k ≠ "user_id" → k ≠ "content" →
        dictGet R k = dictGet E k := by
  have hmem : E ∈ st.docs := List.mem_of_find?_eq_some hchk
  obtain ⟨m, hm, _⟩ := wf_ids_lt hwf hmem
  have hidvE : idValOf E = Value.vOid m := by
    unfold idValOf
    rw [(idOf_eq_some_iff E m).mp hm]
    rfl
  have hflt1 : ([("_id", FSpec.feq (idValOf E))] :
      List (String × FSpec)) = idFilter m := by rw [hidvE]; rfl
  have hfindid : st.docs.find? (matchFilter (idFilter m)) = some E :=
    find?_id_of_nodup (wf_nodup hwf) hmem hm
  have h1 := submit_found hwf hchk
  rw [hflt1] at h1
  have hpmR : matchFilter (submitPair e.assignment_id e.user_id)
      (setAll E (submissionDump e)) = true := by
    rw [matchFilter_submitPair_setAll]
    simp
  refine ⟨setAll E (submissionDump e), ?_, ?_, idOf_setAll_sub E e,
    setAll_sub_frame E e "grade" (by decide) (by decide) (by decide),
    setAll_sub_frame E e "feedback" (by decide) (by decide) (by decide),
    setAll_sub_content E e,
    fun k h1k h2k h3k => setAll_sub_frame E e k h1k h2k h3k⟩
  · rw [h1]
  · rw [h1]
    exact find?_updateFirst hfindid hchk hpmR

/-- Witness for C5 at a store holding one graded submission. -/
theorem C5_submit_frame_witness :
    ∃ R : Doc,
      (submit ⟨[[("_id", Value.vOid 0), ("assignment_id", Value.vStr "a1"),
          ("user_id", Value.vStr "u1"), ("content", Value.vStr "v1"),
          ("grade", Value.vInt 95), ("feedback", Value.vStr "ok")]], 1⟩
        ⟨"a1", "u1", some "v2"⟩).1 = some (serialize R) ∧
      (submit ⟨[[("_id", Value.vOid 0), ("assignment_id", Value.vStr "a1"),
          ("user_id", Value.vStr "u1"), ("content", Value.vStr "v1"),
          ("grade", Value.vInt 95), ("feedback", Value.vStr "ok")]], 1⟩
        ⟨"a1", "u1", some "v2"⟩).2.docs.find?
        (matchFilter (submitPair "a1" "u1")) = some R ∧
      idOf R = idOf [("_id", Value.vOid 0), ("assignment_id", Value.vStr "a1"),
          ("user_id", Value.vStr "u1"), ("content", Value.vStr "v1"),
          ("grade", Value.vInt 95), ("feedback", Value.vStr "ok")] ∧
      dictGet R "grade" = dictGet [("_id", Value.vOid 0),
          ("assignment_id", Value.vStr "a1"), ("user_id", Value.vStr "u1"),
          ("content", Value.vStr "v1"), ("grade", Value.vInt 95),
          ("feedback", Value.vStr "ok")] "grade" ∧
      dictGet R "feedback" = dictGet [("_id", Value.vOid 0),
          ("assignment_id", Value.vStr "a1"), ("user_id", Value.vStr "u1"),
          ("content", Value.vStr "v1"), ("grade", Value.vInt 95),
          ("feedback", Value.vStr "ok")] "feedback" ∧
      dictGet R "content" = some (optStr (some "v2")) ∧
      ∀ k : String, k ≠ "assignment_id" → k ≠ "user_id" → k ≠ "content" →
        dictGet R k = dictGet [("_id", Value.vOid 0),
          ("assignment_id", Value.vStr "a1"), ("user_id", Value.vStr "u1"),
          ("content", Value.vStr "v1"), ("grade", Value.vInt 95),
          ("feedback", Value.vStr "ok")] k :=
  C5_submit_frame ⟨[[("_id", Value.vOid 0), ("assignment_id", Value.vStr "a1"),
      ("user_id", Value.vStr "u1"), ("content", Value.vStr "v1"),
      ("grade", Value.vInt 95), ("feedback", Value.vStr "ok")]], 1⟩
    ⟨"a1", "u1", some "v2"⟩ _ (by decide) (by decide)

/-- C10: a resubmission whose body omits `content` (`content = None`) stores
a null `content`, erasing the previously stored content rather than leaving
it untouched. -/
theorem C10_submit_content_erase (st : Coll) (e : SubmissionIn) (E : Doc)
    (prev : String) (hwf : wfColl st = true)
    (hchk : submitCheck st e = some E) (hnone : e.content = none)
    (hprev : dictGet E "content" = some (Value.vStr prev)) :
    ∃ R : Doc,
      (submit st e).2.docs.find?
        (matchFilter (submitPair e.assignment_id e.user_id)) = some R ∧
      dictGet R "content" = some Value.vNull ∧
      dictGet R "content" ≠ dictGet E "content" := by
  have hmem : E ∈ st.docs := List.mem_of_find?_eq_some hchk
  obtain ⟨m, hm, _⟩ := wf_ids_lt hwf hmem
  have hidvE : idValOf E = Value.vOid m := by
    unfold idValOf
    rw [(idOf_eq_some_iff E m).mp hm]
    rfl
  have hflt1 : ([("_id", FSpec.feq (idValOf E))] :
      List (String × FSpec)) = idFilter m := by rw [hidvE]; rfl
  have hfindid : st.docs.find? (matchFilter (idFilter m)) = some E :=
    find?_id_of_nodup (wf_nodup hwf) hmem hm
  have h1 := submit_found hwf hchk
  rw [hflt1] at h1
  have hpmR : matchFilter (submitPair e.assignment_id e.user_id)
      (setAll E (submissionDump e)) = true := by
    rw [matchFilter_submitPair_setAll]
    simp
  have hcontent : dictGet (setAll E (submissionDump e)) "content" =
      some Value.vNull := by
    rw [setAll_sub_content, hnone]
    rfl
  refine ⟨setAll E (submissionDump e), ?_, hcontent, ?_⟩
  · rw [h1]
    exact find?_updateFirst hfindid hchk hpmR
  · rw [hcontent, hprev]
    simp

/-- Witness for C10: resubmitting without content erases the stored value. -/
theorem C10_submit_content_erase_witness :
    ∃ R : Doc,
      (submit ⟨[[("_id", Value.vOid 0), ("assignment_id", Value.vStr "a1"),
          ("user_id", Value.vStr "u1"), ("content", Value.vStr "v1")]], 1⟩
        ⟨"a1", "u1", none⟩).2.docs.find?
        (matchFilter (submitPair "a1" "u1")) = some R ∧
      dictGet R "content" = some Value.vNull ∧
      dictGet R "content" ≠ dictGet [("_id", Value.vOid 0),
        ("assignment_id", Value.vStr "a1"), ("user_id", Value.vStr "u1"),
        ("content", Value.vStr "v1")] "content" :=
  C10_submit_content_erase ⟨[[("_id", Value.vOid 0),
      ("assignment_id", Value.vStr "a1"), ("user_id", Value.vStr "u1"),
      ("content", Value.vStr "v1")]], 1⟩ ⟨"a1", "u1", none⟩ _ "v1"
    (by decide) (by decide) rfl (by decide)

/-- Monotone count bound for a first-match update. -/
theorem countP_updateFirst_le {l : List Doc} {p q : Doc → Bool}
    {f : Doc → Doc}
    (h : ∀ d ∈ l, p d = true → q (f d) = true → q d = true) :
    (updateFirst l p f).countP q ≤ l.countP q := by
  induction l with
  | nil => exact Nat.le_refl _
  | cons d rest ih =>
      by_cases hpd : p d = true
      · have hu : updateFirst (d :: rest) p f = f d :: rest := by
          simp [updateFirst, hpd]
        rw [hu, List.countP_cons, List.countP_cons]
        by_cases hq : q (f d) = true
        · rw [hq, h d (List.mem_cons_self d rest) hpd hq]
        · have hq' : q (f d) = false := by simpa using hq
          rw [hq']
          simp
      · have hpd' : p d = false := by simpa using hpd
        have hu : updateFirst (d :: rest) p f = d :: updateFirst rest p f := by
          simp [updateFirst, hpd']
        rw [hu, List.countP_cons, List.countP_cons]
        have := ih (fun x hx hpx => h x (List.mem_cons_of_mem d hx) hpx)
        omega

/-- C3 counterexample: interleaving two `enroll` calls for the same pair as
check–check–act–act (both duplicate-lookups read the initial store, then
both writes run) leaves two enrollment records for the pair, so the claimed
concurrent at-most-one guarantee fails on the code's check-then-act
sequence. -/
theorem C3_concurrent_enroll_two_records :
    ¬ (countEnrollPair
        (enrollAct
          (enrollAct ⟨[], 0⟩ ⟨"c1", "u1", "student"⟩
            (enrollCheck ⟨[], 0⟩ ⟨"c1", "u1", "student"⟩)).2
          ⟨"c1", "u1", "student"⟩
          (enrollCheck ⟨[], 0⟩ ⟨"c1", "u1", "student"⟩)).2 "c1" "u1" ≤ 1) ∧
    countEnrollPair
        (enrollAct
          (enrollAct ⟨[], 0⟩ ⟨"c1", "u1", "student"⟩
            (enrollCheck ⟨[], 0⟩ ⟨"c1", "u1", "student"⟩)).2
          ⟨"c1", "u1", "student"⟩
          (enrollCheck ⟨[], 0⟩ ⟨"c1", "u1", "student"⟩)).2 "c1" "u1" = 2 := by
  constructor
  · decide
  · decide

/-- C3 amended: run sequentially (each call's check sees the other's act),
both `enroll` and `submit` preserve the at-most-one-record-per-dedup-key
invariant, and a call whose dedup key already has a stored record neither
errors nor creates a duplicate: it returns the view of the record that
survives for the key — `enroll` returns the existing record unchanged,
`submit` returns the updated record, which is the one stored for the pair
afterwards.  The concurrent half of the claim fails, see the
counterexample. -/
theorem C3_amended_sequential_dedup (st : Coll) (hwf : wfColl st = true) :
    (∀ (e : EnrollmentIn) (c u : String),
      countEnrollPair st c u ≤ 1 →
      countEnrollPair (enroll st e).2 c u ≤ 1) ∧
    (∀ (e : SubmissionIn) (a u : String),
      countSubmitPair st a u ≤ 1 →
      countSubmitPair (submit st e).2 a u ≤ 1) ∧
    (∀ (e : EnrollmentIn) (d : Doc), enrollCheck st e = some d →
      enroll st e = (some (serialize d), st) ∧
      (enroll st e).2.docs.find?
        (matchFilter (enrollPair e.course_id e.user_id)) = some d) ∧
    (∀ (e : SubmissionIn) (E : Doc), submitCheck st e = some E →
      (submit st e).1 = some (serialize (setAll E (submissionDump e))) ∧
      (submit st e).2.docs.find?
        (matchFilter (submitPair e.assignment_id e.user_id)) =
        some (setAll E (submissionDump e))) := by
  refine ⟨?_, ?_, ?_, ?_⟩
  · intro e c u hcount
    cases hchk : enrollCheck st e with
    | some d =>
        have hs : (enroll st e).2 = st := by rw [enroll_found hchk]
        rw [hs]
        exact hcount
    | none =>
        have hs : (enroll st e).2 =
            ⟨st.docs ++ [("_id", Value.vOid st.nextId) :: enrollmentDump e],
             st.nextId + 1⟩ := by rw [enroll_not_found hwf hchk]
        rw [hs]
        show (st.docs ++ _).countP _ ≤ 1
        rw [List.countP_append]
        by_cases hmatch : matchFilter (enrollPair c u)
            (("_id", Value.vOid st.nextId) :: enrollmentDump e) = true
        · have hm2 := hmatch
          rw [matchFilter_enrollPair_dump] at hm2
          simp only [Bool.and_eq_true, decide_eq_true_eq] at hm2
          obtain ⟨hc, hu⟩ := hm2
          subst hc
          subst hu
          have hzero : st.docs.countP
              (matchFilter (enrollPair e.course_id e.user_id)) = 0 := by
            have hchk' : st.docs.find?
                (matchFilter (enrollPair e.course_id e.user_id)) = none := hchk
            rw [List.find?_eq_none] at hchk'
            rw [List.countP_eq_zero]
            exact hchk'
          rw [hzero, List.countP_cons]
          simp [hmatch]
        · have hm' : matchFilter (enrollPair c u)
              (("_id", Value.vOid st.nextId) :: enrollmentDump e) = false := by
            simpa using hmatch
          rw [List.countP_cons]
          simp only [hm', List.countP_nil]
          simpa using hcount
  · intro e a u hcount
    cases hchk : submitCheck st e with
    | some E =>
        have hmem : E ∈ st.docs := List.mem_of_find?_eq_some hchk
        have hpmE : matchFilter (submitPair e.assignment_id e.user_id) E =
          true := List.find?_some hchk
        obtain ⟨m, hm, _⟩ := wf_ids_lt hwf hmem
        have hidvE : idValOf E = Value.vOid m := by
          unfold idValOf
          rw [(idOf_eq_some_iff E m).mp hm]
          rfl
        have hflt1 : ([("_id", FSpec.feq (idValOf E))] :
            List (String × FSpec)) = idFilter m := by rw [hidvE]; rfl
        have h1 := submit_found hwf hchk
        rw [hflt1] at h1
        have hs : (submit st e).2.docs =
            updateFirst st.docs (matchFilter (idFilter m))
              (fun d => setAll d (submissionDump e)) := by rw [h1]
        show ((submit st e).2.docs).countP _ ≤ 1
        rw [hs]
        refine Nat.le_trans (countP_updateFirst_le ?_) hcount
        intro d hd hpd hqfd
        have hdE : d = E := nodup_idOf_inj (wf_nodup hwf) hd hmem
          ((matchFilter_idFilter_eq_idOf d m).mp hpd) hm
        subst hdE
        rw [matchFilter_submitPair_setAll] at hqfd
        simp only [Bool.and_eq_true, decide_eq_true_eq] at hqfd
        obtain ⟨hca, hcu⟩ := hqfd
        subst hca
        subst hcu
        exact hpmE
    | none =>
        have hs : (submit st e).2 =
            ⟨st.docs ++ [("_id", Value.vOid st.nextId) :: submissionDump e],
             st.nextId + 1⟩ := by rw [submit_not_found hwf hchk]
        rw [hs]
        show (st.docs ++ _).countP _ ≤ 1
        rw [List.countP_append]
        by_cases hmatch : matchFilter (submitPair a u)
            (("_id", Value.vOid st.nextId) :: submissionDump e) = true
        · have hm2 := hmatch
          rw [matchFilter_submitPair_dump] at hm2
          simp only [Bool.and_eq_true, decide_eq_true_eq] at hm2
          obtain ⟨hc, hu⟩ := hm2
          subst hc
          subst hu
          have hzero : st.docs.countP
              (matchFilter (submitPair e.assignment_id e.user_id)) = 0 := by
            have hchk' : st.docs.find?
                (matchFilter (submitPair e.assignment_id e.user_id)) = none :=
              hchk
            rw [List.find?_eq_none] at hchk'
            rw [List.countP_eq_zero]
            exact hchk'
          rw [hzero, List.countP_cons]
          simp [hmatch]
        · have hm' : matchFilter (submitPair a u)
              (("_id", Value.vOid st.nextId) :: submissionDump e) = false := by
            simpa using hmatch
          rw [List.countP_cons]
          simp only [hm', List.countP_nil]
          simpa using hcount
  · intro e d hchk
    refine ⟨enroll_found hchk, ?_⟩
    have hs : (enroll st e).2 = st := by rw [enroll_found hchk]
    rw [hs]
    exact hchk
  · intro e E hchk
    have hmem : E ∈ st.docs := List.mem_of_find?_eq_some hchk
    obtain ⟨m, hm, _⟩ := wf_ids_lt hwf hmem
    have hidvE : idValOf E = Value.vOid m := by
      unfold idValOf
      rw [(idOf_eq_some_iff E m).mp hm]
      rfl
    have hflt1 : ([("_id", FSpec.feq (idValOf E))] :
        List (String × FSpec)) = idFilter m := by rw [hidvE]; rfl
    have hfindid : st.docs.find? (matchFilter (idFilter m)) = some E :=
      find?_id_of_nodup (wf_nodup hwf) hmem hm
    have h1 := submit_found hwf hchk
    rw [hflt1] at h1
    have hpmR : matchFilter (submitPair e.assignment_id e.user_id)
        (setAll E (submissionDump e)) = true := by
      rw [matchFilter_submitPair_setAll]
      simp
    constructor
    · rw [h1]
    · rw [h1]
      exact find?_updateFirst hfindid hchk hpmR

/-- Witness for the amended C3: concrete count preservation for both
operations, and concrete duplicate calls that return the surviving record. -/
theorem C3_amended_sequential_dedup_witness :
    countEnrollPair (enroll ⟨[], 0⟩ ⟨"c1", "u1", "student"⟩).2 "c1" "u1" ≤ 1 ∧
    countSubmitPair (submit ⟨[], 0⟩ ⟨"a1", "u1", some "v"⟩).2 "a1" "u1" ≤ 1 ∧
    (enroll ⟨[[("_id", Value.vOid 0), ("course_id", Value.vStr "c1"),
        ("user_id", Value.vStr "u1"), ("role", Value.vStr "student")]], 1⟩
        ⟨"c1", "u1", "ta"⟩ =
      (some (serialize [("_id", Value.vOid 0), ("course_id", Value.vStr "c1"),
          ("user_id", Value.vStr "u1"), ("role", Value.vStr "student")]),
       ⟨[[("_id", Value.vOid 0), ("course_id", Value.vStr "c1"),
          ("user_id", Value.vStr "u1"), ("role", Value.vStr "student")]], 1⟩) ∧
      (enroll ⟨[[("_id", Value.vOid 0), ("course_id", Value.vStr "c1"),
          ("user_id", Value.vStr "u1"), ("role", Value.vStr "student")]], 1⟩
          ⟨"c1", "u1", "ta"⟩).2.docs.find?
          (matchFilter (enrollPair "c1" "u1")) =
        some [("_id", Value.vOid 0), ("course_id", Value.vStr "c1"),
          ("user_id", Value.vStr "u1"), ("role", Value.vStr "student")]) ∧
    ((submit ⟨[[("_id", Value.vOid 0), ("assignment_id", Value.vStr "a1"),
        ("user_id", Value.vStr "u1"), ("content", Value.vStr "v1")]], 1⟩
        ⟨"a1", "u1", some "v2"⟩).1 =
      some (serialize (setAll [("_id", Value.vOid 0),
          ("assignment_id", Value.vStr "a1"), ("user_id", Value.vStr "u1"),
          ("content", Value.vStr "v1")]
        (submissionDump ⟨"a1", "u1", some "v2"⟩))) ∧
      (submit ⟨[[("_id", Value.vOid 0), ("assignment_id", Value.vStr "a1"),
          ("user_id", Value.vStr "u1"), ("content", Value.vStr "v1")]], 1⟩
          ⟨"a1", "u1", some "v2"⟩).2.docs.find?
          (matchFilter (submitPair "a1" "u1")) =
        some (setAll [("_id", Value.vOid 0),
            ("assignment_id", Value.vStr "a1"), ("user_id", Value.vStr "u1"),
            ("content", Value.vStr "v1")]
          (submissionDump ⟨"a1", "u1", some "v2"⟩))) :=
  ⟨(C3_amended_sequential_dedup ⟨[], 0⟩ (by decide)).1
      ⟨"c1", "u1", "student"⟩ "c1" "u1" (by decide),
   (C3_amended_sequential_dedup ⟨[], 0⟩ (by decide)).2.1
      ⟨"a1", "u1", some "v"⟩ "a1" "u1" (by decide),
   (C3_amended_sequential_dedup
      ⟨[[("_id", Value.vOid 0), ("course_id", Value.vStr "c1"),
          ("user_id", Value.vStr "u1"), ("role", Value.vStr "student")]], 1⟩
      (by decide)).2.2.1 ⟨"c1", "u1", "ta"⟩
      [("_id", Value.vOid 0), ("course_id", Value.vStr "c1"),
        ("user_id", Value.vStr "u1"), ("role", Value.vStr "student")]
      (by decide),
   (C3_amended_sequential_dedup
      ⟨[[("_id", Value.vOid 0), ("assignment_id", Value.vStr "a1"),
          ("user_id", Value.vStr "u1"), ("content", Value.vStr "v1")]], 1⟩
      (by decide)).2.2.2 ⟨"a1", "u1", some "v2"⟩
      [("_id", Value.vOid 0), ("assignment_id", Value.vStr "a1"),
        ("user_id", Value.vStr "u1"), ("content", Value.vStr "v1")]
      (by decide)⟩

/-! ## C4: decode round trip -/

theorem isofy_optStr (o : Option String) : isofy (optStr o) = optStr o := by
  cases o <;> rfl

theorem isofy_optStrList (o : Option (List String)) :
    isofy (optStrList o) = optStrList o := by
  cases o <;> rfl

/-- C4: `create_course` returns a decoded view holding every supplied field
unchanged (defaults having been filled at parse time), with a non-empty `id`
rendered from the fresh internal identifier; `serialize` renders any
datetime-valued field as its ISO-8601 text and leaves every other
non-identifier field unchanged; and parsing fills the schema default for an
omitted `tags` field. -/
theorem C4_create_roundtrip (st : Coll) (c : CourseIn)
    (hwf : wfColl st = true) :
    (∃ v : Doc, (create_course st c).1 = some v ∧
      dictGet v "id" = some (Value.vStr (toHex24 st.nextId)) ∧
      toHex24 st.nextId ≠ "" ∧
      dictGet v "title" = some (Value.vStr c.title) ∧
      dictGet v "description" = some (Value.vStr c.description) ∧
      dictGet v "instructor_id" = some (Value.vStr c.instructor_id) ∧
      dictGet v "tags" = some (optStrList c.tags) ∧
      dictGet v "cover_image" = some (optStr c.cover_image) ∧
      dictGet v "level" = some (optStr c.level)) ∧
    (∀ (doc : Doc) (k s : String), k ≠ "_id" → k ≠ "id" →
      dictGet doc k = some (Value.vDateTime s) →
      dictGet (serialize doc) k = some (Value.vStr s)) ∧
    (∀ (doc : Doc) (k : String), k ≠ "_id" → k ≠ "id" →
      (∀ s, dictGet doc k ≠ some (Value.vDateTime s)) →
      dictGet (serialize doc) k = dictGet doc k) ∧
    (∀ (inp : Doc) (c' : CourseIn), parseCourseIn inp = .ok c' →
      dictGet inp "tags" = none → c'.tags = some []) := by
  refine ⟨?_, ?_, ?_, ?_⟩
  · have hfo : (create_course st c).1 =
        some (serialize (("_id", Value.vOid st.nextId) :: courseDump c)) := by
      unfold create_course create_document findOne
      simp only
      rw [List.find?_append, find?_fresh_none hwf (Nat.le_refl _),
        List.find?_cons_of_pos _
          ((matchFilter_idFilter_eq_idOf _ _).mpr (idOf_new _ _))]
      rfl
    refine ⟨serialize (("_id", Value.vOid st.nextId) :: courseDump c), hfo,
      ?_, toHex24_ne_empty st.nextId, ?_, ?_, ?_, ?_, ?_, ?_⟩
    · exact serialize_id _ st.nextId (by simp [dictGet])
    · rw [serialize_get_ne _ _ (by decide) (by decide)]
      simp [dictGet, courseDump, isofy]
    · rw [serialize_get_ne _ _ (by decide) (by decide)]
      simp [dictGet, courseDump, isofy]
    · rw [serialize_get_ne _ _ (by decide) (by decide)]
      simp [dictGet, courseDump, isofy]
    · rw [serialize_get_ne _ _ (by decide) (by decide)]
      simp [dictGet, courseDump, isofy_optStrList]
    · rw [serialize_get_ne _ _ (by decide) (by decide)]
      simp [dictGet, courseDump, isofy_optStr]
    · rw [serialize_get_ne _ _ (by decide) (by decide)]
      simp [dictGet, courseDump, isofy_optStr]
  · intro doc k s h1 h2 h3
    rw [serialize_get_ne doc k h1 h2, h3]
    rfl
  · intro doc k h1 h2 h3
    rw [serialize_get_ne doc k h1 h2]
    cases hv : dictGet doc k with
    | none => rfl
    | some v =>
        rw [Option.map_some']
        rw [isofy_eq_self v (fun s hs => h3 s (by rw [hv, hs]))]
  · intro inp c' hok htags
    unfold parseCourseIn at hok
    cases herrs : courseInErrs inp with
    | nil =>
        rw [herrs] at hok
        have h2 := Except.ok.inj hok
        rw [← h2]
        show getTags inp = some []
        unfold getTags
        rw [htags]
    | cons a l =>
        rw [herrs] at hok
        simp at hok

/-- Witness for C4: a concrete course-creation round trip, a concrete
datetime rendering, a concretely untouched field and a concrete default
fill. -/
theorem C4_create_roundtrip_witness :
    (∃ v : Doc, (create_course ⟨[], 0⟩
        ⟨"Intro to Systems", "desc", "u1", some [], none, none⟩).1 = some v ∧
      dictGet v "id" = some (Value.vStr (toHex24 0)) ∧
      toHex24 0 ≠ "" ∧
      dictGet v "title" = some (Value.vStr "Intro to Systems") ∧
      dictGet v "description" = some (Value.vStr "desc") ∧
      dictGet v "instructor_id" = some (Value.vStr "u1") ∧
      dictGet v "tags" = some (optStrList (some [])) ∧
      dictGet v "cover_image" = some (optStr none) ∧
      dictGet v "level" = some (optStr none)) ∧
    dictGet (serialize [("_id", Value.vOid 3),
        ("due_date", Value.vDateTime "2024-05-01T00:00:00")]) "due_date" =
      some (Value.vStr "2024-05-01T00:00:00") ∧
    dictGet (serialize [("_id", Value.vOid 3), ("title", Value.vStr "t")])
        "title" =
      dictGet [("_id", Value.vOid 3), ("title", Value.vStr "t")] "title" ∧
    (⟨"t", "d", "u", some [], none, none⟩ : CourseIn).tags = some [] :=
  ⟨(C4_create_roundtrip ⟨[], 0⟩
      ⟨"Intro to Systems", "desc", "u1", some [], none, none⟩ (by decide)).1,
   (C4_create_roundtrip ⟨[], 0⟩
      ⟨"Intro to Systems", "desc", "u1", some [], none, none⟩
      (by decide)).2.1
      [("_id", Value.vOid 3),
        ("due_date", Value.vDateTime "2024-05-01T00:00:00")]
      "due_date" "2024-05-01T00:00:00" (by decide) (by decide) (by decide),
   (C4_create_roundtrip ⟨[], 0⟩
      ⟨"Intro to Systems", "desc", "u1", some [], none, none⟩
      (by decide)).2.2.1
      [("_id", Value.vOid 3), ("title", Value.vStr "t")] "title"
      (by decide) (by decide) (by intro s h; simp [dictGet] at h),
   (C4_create_roundtrip ⟨[], 0⟩
      ⟨"Intro to Systems", "desc", "u1", some [], none, none⟩
      (by decide)).2.2.2
      [("title", Value.vStr "t"), ("description", Value.vStr "d"),
        ("instructor_id", Value.vStr "u")]
      ⟨"t", "d", "u", some [], none, none⟩ rfl rfl⟩

/-- C6: a course-creation request body omitting a required field is rejected
by validation before the handler runs: the error report references the
omitted field with a required-field reason, and the store is unchanged — no
document is persisted. -/
theorem C6_required_field_rejected (st : Coll) (inp : Doc) (f : String)
    (hreq : f ∈ ["title", "description", "instructor_id"])
    (hmiss : dictGet inp f = none) :
    (∃ errs : List ValidationErr,
      (create_course_endpoint st inp).1 = .error errs ∧
      (⟨f, "Field required"⟩ : ValidationErr) ∈ errs) ∧
    (create_course_endpoint st inp).2 = st := by
  have hmem : (⟨f, "Field required"⟩ : ValidationErr) ∈ courseInErrs inp := by
    unfold courseInErrs
    simp only [List.mem_cons, List.not_mem_nil, or_false] at hreq
    rcases hreq with hf | hf | hf <;>
      · subst hf
        unfold reqStrErrs
        rw [hmiss]
        simp
  cases herrs : courseInErrs inp with
  | nil =>
      rw [herrs] at hmem
      simp at hmem
  | cons a l =>
      have hp : parseCourseIn inp = .error (a :: l) := by
        unfold parseCourseIn
        rw [herrs]
      have he : create_course_endpoint st inp = (.error (a :: l), st) := by
        unfold create_course_endpoint
        rw [hp]
      rw [herrs] at hmem
      exact ⟨⟨a :: l, by rw [he], hmem⟩, by rw [he]⟩

/-- Witness for C6: a body missing `title` is rejected and persists
nothing. -/
theorem C6_required_field_rejected_witness :
    (∃ errs : List ValidationErr,
      (create_course_endpoint ⟨[], 0⟩ [("description", Value.vStr "d"),
        ("instructor_id", Value.vStr "u")]).1 = .error errs ∧
      (⟨"title", "Field required"⟩ : ValidationErr) ∈ errs) ∧
    (create_course_endpoint ⟨[], 0⟩ [("description", Value.vStr "d"),
      ("instructor_id", Value.vStr "u")]).2 = (⟨[], 0⟩ : Coll) :=
  C6_required_field_rejected ⟨[], 0⟩
    [("description", Value.vStr "d"), ("instructor_id", Value.vStr "u")]
    "title" (by decide) (by decide)

/-- C7: `get_course` fails with the 400 invalid-id error on any id that is
not a well-formed 24-hex ObjectId token, for every store alike (so no
storage content can influence the outcome), and answers a well-formed id
with no matching document with the 404 not-found error, not an invalid-id
error. -/
theorem C7_get_course_errors (s : String) (st : Coll) :
    (isValidOidStr s = false →
      get_course st s = .error ⟨400, "Invalid id format"⟩) ∧
    (isValidOidStr s = true →
      (∀ d ∈ st.docs, matchFilter (idFilter (hexVal s)) d = false) →
      get_course st s = .error ⟨404, "Course not found"⟩) := by
  constructor
  · intro hbad
    have hoid : oid s = .error ⟨400, "Invalid id format"⟩ := by
      unfold oid
      rw [hbad]
      rfl
    unfold get_course
    simp only [hoid]
  · intro hgood habs
    have hoid : oid s = .ok (hexVal s) := by
      unfold oid
      rw [hgood]
      rfl
    have hnone : findOne st (idFilter (hexVal s)) = none := by
      unfold findOne
      rw [List.find?_eq_none]
      intro x hx
      rw [habs x hx]
      simp
    unfold get_course
    simp only [hoid, hnone]

/-- Witness for C7: an ill-formed id and an unmatched well-formed id. -/
theorem C7_get_course_errors_witness :
    get_course ⟨[], 0⟩ "xyz" = .error ⟨400, "Invalid id format"⟩ ∧
    get_course ⟨[], 0⟩ "aaaaaaaaaaaaaaaaaaaaaaaa" =
      .error ⟨404, "Course not found"⟩ :=
  ⟨(C7_get_course_errors "xyz" ⟨[], 0⟩).1 (by decide),
   (C7_get_course_errors "aaaaaaaaaaaaaaaaaaaaaaaa" ⟨[], 0⟩).2 (by decide)
     (by simp)⟩

/-! ## C8: course listing -/

theorem patFront_literal : ∀ {pat s : List Char},
    pat.all (fun ch => !isRegexMeta ch) = true → patFront pat s = true →
    frontEq (pat.map Char.toLower) (s.map Char.toLower) = true := by
  intro pat
  induction pat with
  | nil => intro s _ _; rfl
  | cons p ps ih =>
      intro s hm h
      cases s with
      | nil => simp [patFront] at h
      | cons c cs =>
          simp only [List.all_cons, Bool.and_eq_true] at hm
          simp only [patFront, Bool.and_eq_true] at h
          have hdot : p ≠ '.' := by
            intro hp
            subst hp
            simp [isRegexMeta] at hm
          have hlow : p.toLower = c.toLower := by
            have := h.1
            unfold charMatchI at this
            simp only [Bool.or_eq_true, decide_eq_true_eq] at this
            rcases this with hthis | hthis
            · exact absurd hthis hdot
            · exact hthis
          simp only [List.map_cons, frontEq, Bool.and_eq_true,
            decide_eq_true_eq]
          exact ⟨hlow, ih hm.2 h.2⟩

theorem patSearch_literal {pat : List Char} : ∀ {s : List Char},
    pat.all (fun ch => !isRegexMeta ch) = true → patSearch pat s = true →
    sublistSearch (pat.map Char.toLower) (s.map Char.toLower) = true := by
  intro s
  induction s with
  | nil =>
      intro hm h
      unfold patSearch at h
      unfold sublistSearch
      exact patFront_literal hm h
  | cons c cs ih =>
      intro hm h
      unfold patSearch at h
      simp only [Bool.or_eq_true] at h
      simp only [List.map_cons, sublistSearch, Bool.or_eq_true]
      rcases h with h | h
      · exact Or.inl (by
          have := patFront_literal hm h
          simpa using this)
      · exact Or.inr (ih hm h)

theorem regexSearchI_literal {q t : String}
    (hm : q.data.all (fun ch => !isRegexMeta ch) = true)
    (h : regexSearchI q t = true) : containsCI q t = true :=
  patSearch_literal hm h

theorem matchSpec_fregexI (d : Doc) (k pat : String) :
    matchSpec d k (.fregexI pat) = true ↔
      ∃ t, dictGet d k = some (Value.vStr t) ∧ regexSearchI pat t = true := by
  unfold matchSpec
  cases h : dictGet d k with
  | none => simp
  | some v => cases v <;> simp

/-- C8 counterexample: with one stored course titled `"abc"`, the filter
`q = "a.c"` returns that course although `"a.c"` is not a substring of its
title (the filter string is interpreted as a regular expression), and with
`limit = 0` the returned count exceeds the requested limit (`limit(0)`
disables the cap). -/
theorem C8_list_courses_counterexample :
    (∃ d ∈ list_courses ⟨[[("_id", Value.vOid 0),
        ("title", Value.vStr "abc")]], 1⟩ (some "a.c") none 50,
      dictGet d "title" = some (Value.vStr "abc") ∧
        containsCI "a.c" "abc" = false) ∧
    (list_courses ⟨[[("_id", Value.vOid 0), ("title", Value.vStr "abc")]], 1⟩
      none none 0).length = 1 := by
  constructor
  · decide
  · decide

/-- C8 amended: every record returned by the title search has a title that
matches `q` as a case-insensitive regular expression — which is substring
containment whenever `q` contains no regex metacharacter — and when the
requested limit is non-zero the result count never exceeds its absolute
value (`limit = 0` disables the cap). -/
theorem C8_amended_list_courses (st : Coll) (q : String) (tag : Option String)
    (limit : Int) (hq : q ≠ "") :
    (∀ d ∈ list_courses st (some q) tag limit,
      ∃ t : String, dictGet d "title" = some (Value.vStr t) ∧
        regexSearchI q t = true ∧
        (q.data.all (fun ch => !isRegexMeta ch) = true →
          containsCI q t = true)) ∧
    (limit ≠ 0 →
      (list_courses st (some q) tag limit).length ≤ limit.natAbs) := by
  constructor
  · intro d hd
    unfold list_courses at hd
    rw [List.mem_map] at hd
    obtain ⟨d0, hd0, hser⟩ := hd
    have hd0f : d0 ∈ st.docs.filter
        (matchFilter (coursesFilter (some q) tag)) := by
      unfold mongoLimit at hd0
      by_cases hl : limit = 0
      · rw [if_pos hl] at hd0
        exact hd0
      · rw [if_neg hl] at hd0
        exact List.mem_of_mem_take hd0
    have hmatch : matchFilter (coursesFilter (some q) tag) d0 = true :=
      List.of_mem_filter hd0f
    have hmemf : ("title", FSpec.fregexI q) ∈ coursesFilter (some q) tag := by
      unfold coursesFilter
      dsimp only
      rw [if_neg hq]
      exact List.mem_append_left _ (List.mem_cons_self _ _)
    unfold matchFilter at hmatch
    rw [List.all_eq_true] at hmatch
    have htitle : matchSpec d0 "title" (FSpec.fregexI q) = true :=
      hmatch _ hmemf
    obtain ⟨t, hv, hre⟩ := (matchSpec_fregexI d0 "title" q).mp htitle
    refine ⟨t, ?_, hre, fun hlit => regexSearchI_literal hlit hre⟩
    rw [← hser, serialize_get_ne d0 "title" (by decide) (by decide), hv]
    rfl
  · intro hl
    unfold list_courses mongoLimit
    rw [if_neg hl, List.length_map]
    exact List.length_take_le _ _

/-- Witness for the amended C8 at a concrete store and query. -/
theorem C8_amended_list_courses_witness :
    (∃ t : String, dictGet (serialize [("_id", Value.vOid 0),
        ("title", Value.vStr "aBc")]) "title" = some (Value.vStr t) ∧
      regexSearchI "ab" t = true ∧
      ("ab".data.all (fun ch => !isRegexMeta ch) = true →
        containsCI "ab" t = true)) ∧
    (list_courses ⟨[[("_id", Value.vOid 0), ("title", Value.vStr "aBc")]], 1⟩
      (some "ab") none 50).length ≤ (50 : Int).natAbs :=
  ⟨(C8_amended_list_courses ⟨[[("_id", Value.vOid 0),
      ("title", Value.vStr "aBc")]], 1⟩ "ab" none 50 (by decide)).1
      (serialize [("_id", Value.vOid 0), ("title", Value.vStr "aBc")])
      (by decide),
   (C8_amended_list_courses ⟨[[("_id", Value.vOid 0),
      ("title", Value.vStr "aBc")]], 1⟩ "ab" none 50 (by decide)).2
      (by decide)⟩

/-! ## C9: lesson listing order -/

theorem orderKey_serialize (d : Doc) : orderKey (serialize d) = orderKey d := by
  unfold orderKey
  rw [serialize_get_ne d "order" (by decide) (by decide)]
  cases h : dictGet d "order" with
  | none => rfl
  | some v =>
      simp only [Option.map_some']
      cases v <;> rfl

theorem sortedByOrder_map_serialize :
    ∀ r : List Doc, sortedByOrder (r.map serialize) = sortedByOrder r := by
  intro r
  induction r with
  | nil => rfl
  | cons a rest ih =>
      cases rest with
      | nil => rfl
      | cons b rest2 =>
          show sortedByOrder (serialize a :: serialize b ::
            (rest2.map serialize)) = _
          unfold sortedByOrder
          rw [orderKey_serialize, orderKey_serialize]
          have ih2 : sortedByOrder (serialize b :: rest2.map serialize) =
              sortedByOrder (b :: rest2) := ih
          rw [ih2]

/-- C9 counterexample: with two lessons of the same course sharing
`order = 1`, the sort relation of the storage layer admits an output in
reversed insertion order — ascending order does not force stability, so the
claimed insertion-order tie-breaking fails. -/
theorem C9_lessons_sort_not_stable :
    list_lessonsRel
      ⟨[[("_id", Value.vOid 0), ("course_id", Value.vStr "c"),
          ("title", Value.vStr "L1"), ("content", Value.vNull),
          ("video_url", Value.vNull), ("order", Value.vInt 1)],
        [("_id", Value.vOid 1), ("course_id", Value.vStr "c"),
          ("title", Value.vStr "L2"), ("content", Value.vNull),
          ("video_url", Value.vNull), ("order", Value.vInt 1)]], 2⟩ "c"
      [serialize [("_id", Value.vOid 1), ("course_id", Value.vStr "c"),
          ("title", Value.vStr "L2"), ("content", Value.vNull),
          ("video_url", Value.vNull), ("order", Value.vInt 1)],
       serialize [("_id", Value.vOid 0), ("course_id", Value.vStr "c"),
          ("title", Value.vStr "L1"), ("content", Value.vNull),
          ("video_url", Value.vNull), ("order", Value.vInt 1)]] ∧
    [serialize [("_id", Value.vOid 1), ("course_id", Value.vStr "c"),
        ("title", Value.vStr "L2"), ("content", Value.vNull),
        ("video_url", Value.vNull), ("order", Value.vInt 1)],
     serialize [("_id", Value.vOid 0), ("course_id", Value.vStr "c"),
        ("title", Value.vStr "L1"), ("content", Value.vNull),
        ("video_url", Value.vNull), ("order", Value.vInt 1)]] ≠
    [serialize [("_id", Value.vOid 0), ("course_id", Value.vStr "c"),
        ("title", Value.vStr "L1"), ("content", Value.vNull),
        ("video_url", Value.vNull), ("order", Value.vInt 1)],
     serialize [("_id", Value.vOid 1), ("course_id", Value.vStr "c"),
        ("title", Value.vStr "L2"), ("content", Value.vNull),
        ("video_url", Value.vNull), ("order", Value.vInt 1)]] := by
  constructor
  · refine ⟨[[("_id", Value.vOid 1), ("course_id", Value.vStr "c"),
        ("title", Value.vStr "L2"), ("content", Value.vNull),
        ("video_url", Value.vNull), ("order", Value.vInt 1)],
      [("_id", Value.vOid 0), ("course_id", Value.vStr "c"),
        ("title", Value.vStr "L1"), ("content", Value.vNull),
        ("video_url", Value.vNull), ("order", Value.vInt 1)]], ?_, ?_, rfl⟩
    · decide
    · decide
  · decide

/-- C9 amended: every output the lesson listing can produce consists of
exactly the course's lessons, serialized, in ascending `order`; the relative
order of lessons with equal `order` is not guaranteed (and so not
necessarily insertion order). -/
theorem C9_amended_lessons_sorted (st : Coll) (cid : String)
    (out : List Doc) (h : list_lessonsRel st cid out) :
    sortedByOrder out = true ∧
    out.Perm ((st.docs.filter
      (matchFilter [("course_id", FSpec.feq (Value.vStr cid))])).map
        serialize) := by
  obtain ⟨r, hperm, hsort, hout⟩ := h
  subst hout
  constructor
  · rw [sortedByOrder_map_serialize]
    exact hsort
  · exact hperm.map serialize

/-- Witness for the amended C9 at a one-lesson store. -/
theorem C9_amended_lessons_sorted_witness :
    sortedByOrder [serialize [("_id", Value.vOid 0),
      ("course_id", Value.vStr "c"), ("title", Value.vStr "L1"),
      ("content", Value.vNull), ("video_url", Value.vNull),
      ("order", Value.vInt 1)]] = true ∧
    [serialize [("_id", Value.vOid 0), ("course_id", Value.vStr "c"),
      ("title", Value.vStr "L1"), ("content", Value.vNull),
      ("video_url", Value.vNull), ("order", Value.vInt 1)]].Perm
      (((⟨[[("_id", Value.vOid 0), ("course_id", Value.vStr "c"),
          ("title", Value.vStr "L1"), ("content", Value.vNull),
          ("video_url", Value.vNull), ("order", Value.vInt 1)]], 1⟩ :
        Coll).docs.filter
        (matchFilter [("course_id", FSpec.feq (Value.vStr "c"))])).map
          serialize) :=
  C9_amended_lessons_sorted
    ⟨[[("_id", Value.vOid 0), ("course_id", Value.vStr "c"),
        ("title", Value.vStr "L1"), ("content", Value.vNull),
        ("video_url", Value.vNull), ("order", Value.vInt 1)]], 1⟩ "c"
    [serialize [("_id", Value.vOid 0), ("course_id", Value.vStr "c"),
        ("title", Value.vStr "L1"), ("content", Value.vNull),
        ("video_url", Value.vNull), ("order", Value.vInt 1)]]
    ⟨[[("_id", Value.vOid 0), ("course_id", Value.vStr "c"),
        ("title", Value.vStr "L1"), ("content", Value.vNull),
        ("video_url", Value.vNull), ("order", Value.vInt 1)]],
      by decide, by decide, rfl⟩
